import Mathlib

/-!
Verification of the claude.js HTTP client library (KudoAI/claude.js).

The development shallowly embeds the two source variants' logic:

* the streaming-response decoder inside `sendMessage` (src/index.js lines
  237-243): split the response text on runs of CR/LF, drop falsy (empty)
  lines, take the part after `'data: '` of each line, `JSON.parse` it,
  read its `completion` property, join with `''` and `trim`;
* the chat-index-taking operations (`getChatDetails`, `deleteChat`,
  `sendMessage`, `generateChatTitle`, `renameChatTitle` in src/index.js and
  `getChatMessagesDetails` in the unnamed variant), modelled as functions
  from a fixed backend environment and the cached `claudejs.orgUUID` state
  to the list of issued HTTP requests, the new state and the outcome.

JavaScript built-ins used by the source (`String.prototype.split` with the
regex `/[\r\n]+/` and with the literal `'data: '`, `JSON.parse`,
`Array.prototype.join`, `String.prototype.trim`) are embedded following
their ECMAScript / RFC 8259 semantics.  Two representation boundaries:
numeric JSON literals are kept as their source lexemes (no claim involves
numbers), and a lone UTF-16 surrogate arising from a `\uXXXX` escape is
mapped to U+FFFD because Lean strings hold Unicode scalar values.
-/

/-! ## Splitting on runs of CR/LF: `text.split(/[\r\n]+/)` -/

/-- Is the character one of the two characters matched by the regex
class `[\r\n]`? -/
def lineSep (c : Char) : Bool := c = '\r' || c = '\n'

/-- Does the string start with a CR/LF character? -/
def headSep : List Char → Bool
  | d :: _ => lineSep d
  | [] => false

/-- JavaScript `text.split(/[\r\n]+/)`: split on maximal runs of CR/LF
characters.  `""` gives `[""]`, a leading or trailing run gives a leading
or trailing empty token, and interior tokens are never empty because
adjacent separators belong to one run. -/
def splitLines : List Char → List (List Char)
  | [] => [[]]
  | c :: cs =>
    if lineSep c then
      if headSep cs then splitLines cs else [] :: splitLines cs
    else
      match splitLines cs with
      | t :: ts => (c :: t) :: ts
      | [] => [[c]]

/-! ## Splitting on the literal `'data: '` -/

/-- Does the string contain the substring `"data: "`? -/
def hasData : List Char → Bool
  | 'd' :: 'a' :: 't' :: 'a' :: ':' :: ' ' :: _ => true
  | _ :: cs => hasData cs
  | [] => false

/-- JavaScript `line.split('data: ')`: split on non-overlapping
occurrences of the literal separator `"data: "`, scanning left to
right. -/
def splitOnData : List Char → List (List Char)
  | 'd' :: 'a' :: 't' :: 'a' :: ':' :: ' ' :: rest => [] :: splitOnData rest
  | c :: cs =>
    match splitOnData cs with
    | [] => [[c]]
    | t :: ts => (c :: t) :: ts
  | [] => [[]]

/-! ## JSON values and `JSON.parse` -/

/-- A parsed JSON value.  Numeric literals are kept as their source
lexemes (no claim involves numeric completions); object members keep
every key/value pair in source order, and property lookup takes the last
occurrence of a key, as `JSON.parse` does. -/
inductive Json where
  | null
  | bool (b : Bool)
  | num (lex : List Char)
  | str (s : List Char)
  | arr (elems : List Json)
  | obj (members : List (List Char × Json))

/-- Value of a hexadecimal digit, `none` for a non-hex character. -/
def hexVal (c : Char) : Option Nat :=
  if '0' ≤ c ∧ c ≤ '9' then some (c.toNat - '0'.toNat)
  else if 'a' ≤ c ∧ c ≤ 'f' then some (c.toNat - 'a'.toNat + 10)
  else if 'A' ≤ c ∧ c ≤ 'F' then some (c.toNat - 'A'.toNat + 10)
  else none

/-- The character with the given code point; a code that is not a Unicode
scalar value (a lone surrogate, representable in a JavaScript string but
not in a Lean one) is mapped to U+FFFD. -/
def codeToChar (n : Nat) : Char :=
  if n.isValidChar then Char.ofNat n else '�'

mutual

/-- Body of a JSON string literal, after the opening quote: the decoded
characters up to the closing quote, and the input after it.  Escapes are
`\" \\ \/ \b \f \n \r \t \uXXXX`; a raw control character or an unknown
escape is a syntax error.  A `\uXXXX` escape denoting a UTF-16 surrogate
is mapped to U+FFFD (JavaScript strings hold arbitrary code units, Lean
strings hold scalar values — this representation boundary is outside
every claim, whose inputs never contain surrogate escapes). -/
def parseStringBody : List Char → Option (List Char × List Char)
  | [] => none
  | c :: cs =>
    if c = '"' then some ([], cs)
    else if c = '\\' then parseStringEsc cs
    else if c.toNat < 0x20 then none
    else (parseStringBody cs).map fun p => (c :: p.1, p.2)

/-- The character after a backslash inside a JSON string literal. -/
def parseStringEsc : List Char → Option (List Char × List Char)
  | [] => none
  | e :: cs2 =>
    if e = '"' then (parseStringBody cs2).map fun p => ('"' :: p.1, p.2)
    else if e = '\\' then (parseStringBody cs2).map fun p => ('\\' :: p.1, p.2)
    else if e = '/' then (parseStringBody cs2).map fun p => ('/' :: p.1, p.2)
    else if e = 'b' then (parseStringBody cs2).map fun p => (Char.ofNat 8 :: p.1, p.2)
    else if e = 'f' then (parseStringBody cs2).map fun p => (Char.ofNat 12 :: p.1, p.2)
    else if e = 'n' then (parseStringBody cs2).map fun p => ('\n' :: p.1, p.2)
    else if e = 'r' then (parseStringBody cs2).map fun p => ('\r' :: p.1, p.2)
    else if e = 't' then (parseStringBody cs2).map fun p => ('\t' :: p.1, p.2)
    else if e = 'u' then parseStringHex cs2
    else none

/-- The four hex digits of a `\uXXXX` escape. -/
def parseStringHex : List Char → Option (List Char × List Char)
  | h1 :: h2 :: h3 :: h4 :: cs3 =>
    match hexVal h1, hexVal h2, hexVal h3, hexVal h4 with
    | some a, some b, some c2, some d =>
      let n := ((a * 16 + b) * 16 + c2) * 16 + d
      (parseStringBody cs3).map fun p => (codeToChar n :: p.1, p.2)
    | _, _, _, _ => none
  | _ => none

end

/-- The JSON (and `JSON.parse`) whitespace characters. -/
def jsonWs (c : Char) : Bool := c = ' ' || c = '\t' || c = '\n' || c = '\r'

/-- Drop leading JSON whitespace. -/
def skipWs (cs : List Char) : List Char := cs.dropWhile jsonWs

/-- A JSON number token per the RFC 8259 grammar
`-? (0 | [1-9][0-9]*) frac? exp?`; the lexeme is kept verbatim.  A
malformed tail (e.g. `1.`) is left unconsumed, which makes the enclosing
parse fail exactly where `JSON.parse` reports a syntax error. -/
def parseNumberTok (cs : List Char) : Option (Json × List Char) :=
  let sgn : List Char × List Char :=
    match cs with
    | '-' :: r => (['-'], r)
    | _ => ([], cs)
  match sgn.2 with
  | [] => none
  | c :: r =>
    if ¬ c.isDigit then none
    else
      let ip : List Char × List Char :=
        if c = '0' then (['0'], r)
        else (c :: r.takeWhile Char.isDigit, r.dropWhile Char.isDigit)
      let fp : List Char × List Char :=
        match ip.2 with
        | '.' :: f :: fr =>
          if f.isDigit then ('.' :: f :: fr.takeWhile Char.isDigit, fr.dropWhile Char.isDigit)
          else ([], ip.2)
        | _ => ([], ip.2)
      let ep : List Char × List Char :=
        match fp.2 with
        | e :: s :: r3 =>
          if e = 'e' ∨ e = 'E' then
            if s = '+' ∨ s = '-' then
              match r3 with
              | d :: _ =>
                if d.isDigit then (e :: s :: r3.takeWhile Char.isDigit, r3.dropWhile Char.isDigit)
                else ([], fp.2)
              | [] => ([], fp.2)
            else if s.isDigit then (e :: s :: r3.takeWhile Char.isDigit, r3.dropWhile Char.isDigit)
            else ([], fp.2)
          else ([], fp.2)
        | _ => ([], fp.2)
      some (Json.num (sgn.1 ++ ip.1 ++ fp.1 ++ ep.1), ep.2)

mutual

/-- Parse one JSON value at the head of the input (whitespace already
skipped), returning the value and the rest of the input.  The fuel
argument only bounds nesting; `jsonParse` passes enough for any input. -/
def parseValue : Nat → List Char → Option (Json × List Char)
  | 0, _ => none
  | f + 1, cs =>
    match cs with
    | [] => none
    | c :: rest =>
      if c = '{' then parseMembersFirst f (skipWs rest)
      else if c = '[' then parseElemsFirst f (skipWs rest)
      else if c = '"' then (parseStringBody rest).map fun p => (Json.str p.1, p.2)
      else if c = 't' then
        if rest.take 3 = ['r', 'u', 'e'] then some (Json.bool true, rest.drop 3) else none
      else if c = 'f' then
        if rest.take 4 = ['a', 'l', 's', 'e'] then some (Json.bool false, rest.drop 4) else none
      else if c = 'n' then
        if rest.take 3 = ['u', 'l', 'l'] then some (Json.null, rest.drop 3) else none
      else parseNumberTok (c :: rest)

/-- After `{` and whitespace: an empty object or the first member. -/
def parseMembersFirst : Nat → List Char → Option (Json × List Char)
  | 0, _ => none
  | f + 1, cs =>
    match cs with
    | [] => none
    | c :: rest =>
      if c = '}' then some (Json.obj [], rest)
      else if c = '"' then
        match parseStringBody rest with
        | none => none
        | some (k, r1) =>
          match skipWs r1 with
          | ':' :: r2 =>
            match parseValue f (skipWs r2) with
            | none => none
            | some (v, r3) => parseMembersRest f [(k, v)] (skipWs r3)
          | _ => none
      else none

/-- After a member and whitespace: `}` closes the object, `,` starts the
next member. -/
def parseMembersRest : Nat → List (List Char × Json) → List Char → Option (Json × List Char)
  | 0, _, _ => none
  | f + 1, acc, cs =>
    match cs with
    | [] => none
    | c :: rest =>
      if c = '}' then some (Json.obj acc, rest)
      else if c = ',' then
        match skipWs rest with
        | '"' :: r1 =>
          match parseStringBody r1 with
          | none => none
          | some (k, r2) =>
            match skipWs r2 with
            | ':' :: r3 =>
              match parseValue f (skipWs r3) with
              | none => none
              | some (v, r4) => parseMembersRest f (acc ++ [(k, v)]) (skipWs r4)
            | _ => none
        | _ => none
      else none

/-- After `[` and whitespace: an empty array or the first element. -/
def parseElemsFirst : Nat → List Char → Option (Json × List Char)
  | 0, _ => none
  | f + 1, cs =>
    match cs with
    | [] => none
    | c :: rest =>
      if c = ']' then some (Json.arr [], rest)
      else
        match parseValue f (c :: rest) with
        | none => none
        | some (v, r1) => parseElemsRest f [v] (skipWs r1)

/-- After an element and whitespace: `]` closes the array, `,` starts the
next element. -/
def parseElemsRest : Nat → List Json → List Char → Option (Json × List Char)
  | 0, _, _ => none
  | f + 1, acc, cs =>
    match cs with
    | [] => none
    | c :: rest =>
      if c = ']' then some (Json.arr acc, rest)
      else if c = ',' then
        match parseValue f (skipWs rest) with
        | none => none
        | some (v, r1) => parseElemsRest f (acc ++ [v]) (skipWs r1)
      else none

end

/-- `JSON.parse`: whitespace, one value, whitespace, end of input;
anything else is a syntax error (`none`).  The fuel `2 * length + 2`
exceeds the two ticks spent per consumed character, so it never runs out
before the input does. -/
def jsonParse (cs : List Char) : Option Json :=
  match parseValue (2 * cs.length + 2) (skipWs cs) with
  | some (v, rest) => if skipWs rest = [] then some v else none
  | none => none

/-! ## Property access, `join('')` coercion, `trim()` -/

/-- JavaScript property read on a parsed object: the last member with the
given key wins, as with duplicate keys in `JSON.parse`. -/
def objGet (ms : List (List Char × Json)) (k : List Char) : Option Json :=
  (ms.reverse.find? fun p => p.1 == k).map fun p => p.2

/-- The errors the decoder pipeline can throw: `SyntaxError` from
`JSON.parse`, `TypeError` from reading `.completion` off `null`. -/
inductive JsErr where
  | syntaxError
  | typeError

/-- `parsed.completion`: reading a property off `null` throws a
`TypeError`; off an object it is the member lookup (`none` = `undefined`
when absent); off any other value it is `undefined`. -/
def jsGetCompletion : Json → Except JsErr (Option Json)
  | Json.null => Except.error JsErr.typeError
  | Json.obj ms => Except.ok (objGet ms ("completion".data))
  | _ => Except.ok none

mutual

/-- How `Array.prototype.join('')` renders one element: `undefined` and
`null` become empty, strings stay themselves, booleans print, arrays
join recursively with `,`, plain objects print as `[object Object]`;
numeric values are rendered as their kept lexeme. -/
def jsJoinVal : Json → List Char
  | Json.null => []
  | Json.bool b => if b then "true".data else "false".data
  | Json.num lex => lex
  | Json.str s => s
  | Json.obj _ => "[object Object]".data
  | Json.arr vs => jsJoinElems vs

/-- Elements of a nested array, `,`-separated, as `Array.prototype.toString`. -/
def jsJoinElems : List Json → List Char
  | [] => []
  | [v] => jsJoinVal v
  | v :: vs => jsJoinVal v ++ ',' :: jsJoinElems vs

end

/-- One mapped chunk as it appears to `join('')`: `undefined` (a missing
`completion` member) renders as the empty string. -/
def joinPiece : Option Json → List Char
  | none => []
  | some v => jsJoinVal v

/-- The WhiteSpace and LineTerminator code points removed by
`String.prototype.trim`. -/
def trimWs (c : Char) : Bool :=
  [9, 10, 11, 12, 13, 32, 0xA0, 0x1680, 0x2000, 0x2001, 0x2002, 0x2003, 0x2004,
    0x2005, 0x2006, 0x2007, 0x2008, 0x2009, 0x200A, 0x2028, 0x2029, 0x202F,
    0x205F, 0x3000, 0xFEFF].contains c.toNat

/-- Drop trim-whitespace from the front. -/
def trimLeft (cs : List Char) : List Char := cs.dropWhile trimWs

/-- Drop trim-whitespace from the back. -/
def trimRight (cs : List Char) : List Char := (trimLeft cs.reverse).reverse

/-- JavaScript `s.trim()`. -/
def jsTrim (cs : List Char) : List Char := trimRight (trimLeft cs)

/-! ## The streaming response decoder (src/index.js lines 237-243) -/

/-- One retained line of the stream:
`JSON.parse(dataString.split('data: ')[1]).completion`.  When the line
has no `'data: '` occurrence, `[1]` is `undefined` and `JSON.parse`
receives the string `"undefined"`, a syntax error. -/
def chunkCompletion (l : List Char) : Except JsErr (Option Json) :=
  let arg := ((splitOnData l).get? 1).getD ("undefined".data)
  match jsonParse arg with
  | none => Except.error JsErr.syntaxError
  | some v => jsGetCompletion v

/-- Map `chunkCompletion` over the retained lines, stopping at the first
thrown error, as the exception in the `.map` callback does. -/
def mapChunks : List (List Char) → Except JsErr (List (Option Json))
  | [] => Except.ok []
  | l :: ls =>
    match chunkCompletion l with
    | Except.error e => Except.error e
    | Except.ok v =>
      match mapChunks ls with
      | Except.error e => Except.error e
      | Except.ok vs => Except.ok (v :: vs)

/-- The decoder on a character list: split on CR/LF runs, drop falsy
(empty) lines, map each to its `completion`, join with `''`, trim. -/
def decodeChunks (cs : List Char) : Except JsErr (List Char) :=
  match mapChunks ((splitLines cs).filter fun l => !l.isEmpty) with
  | Except.error e => Except.error e
  | Except.ok vs => Except.ok (jsTrim (vs.map joinPiece).flatten)

/-- The decoder embedded in `sendMessage`, on the full response text. -/
def decode (s : String) : Except JsErr String :=
  match decodeChunks s.data with
  | Except.error e => Except.error e
  | Except.ok cs => Except.ok (String.mk cs)

/-! ## The `claudejs` operations (validation, requests, `orgUUID` cache)

Each operation is modelled as a function of a fixed backend environment
(the responses the vendor API would give) and the mutable client state
(the cached `claudejs.orgUUID`), returning the list of HTTP requests it
issues in order, the state it leaves behind, and its outcome.  Response
payloads other than the ones the code inspects (the account's first
organization uuid, the chat list's uuids, the `append_message` response
text, the generated title) are outside the model. -/

/-- A JavaScript value passed as an operation argument.  Numbers are
modelled as integers: every claim about index validation quantifies over
numeric index values, which the source compares with `<` and `>=`. -/
inductive JsP where
  | undef
  | null
  | bool (b : Bool)
  | num (n : Int)
  | str (s : String)
  | arr (elems : List JsP)
  | obj (fields : List (String × JsP))

/-- JavaScript `typeof`. -/
def jsTypeof : JsP → String
  | JsP.undef => "undefined"
  | JsP.null => "object"
  | JsP.bool _ => "boolean"
  | JsP.num _ => "number"
  | JsP.str _ => "string"
  | JsP.arr _ => "object"
  | JsP.obj _ => "object"

/-- JavaScript falsiness: `undefined`, `null`, `false`, `0` and `""` are
falsy; every array and object is truthy. -/
def jsFalsy : JsP → Bool
  | JsP.undef => true
  | JsP.null => true
  | JsP.bool b => !b
  | JsP.num n => n = 0
  | JsP.str s => s.isEmpty
  | JsP.arr _ => false
  | JsP.obj _ => false

/-- The numeric value of an argument already known to have
`typeof === 'number'`. -/
def idxInt : JsP → Int
  | JsP.num n => n
  | _ => 0

/-- `message.length` of an argument already known to be a string. -/
def msgLength : JsP → Nat
  | JsP.str s => s.length
  | _ => 0

/-- Is `message.trim()` falsy (the empty string)? -/
def msgTrimEmpty : JsP → Bool
  | JsP.str s => (jsTrim s.data).isEmpty
  | _ => false

/-- Optional-chained property read `attachment?.key`. -/
def attGet (a : JsP) (k : String) : Option JsP :=
  match a with
  | JsP.obj fs => (fs.reverse.find? fun p => p.1 == k).map fun p => p.2
  | _ => none

/-- Is `attachment?.key !== undefined`? -/
def attHas (a : JsP) (k : String) : Bool :=
  match attGet a k with
  | some JsP.undef => false
  | some _ => true
  | none => false

/-- `Object.keys(attachment).length`: distinct own keys of an object, the
index count of an array, none for primitives. -/
def keysCount : JsP → Nat
  | JsP.obj fs => ((fs.map Prod.fst).eraseDups).length
  | JsP.arr vs => vs.length
  | _ => 0

/-- The per-element attachment shape check in `sendMessage`
(src/index.js lines 206-214): an object whose `extracted_content`,
`file_name`, `file_size` and `file_type` are all defined and which has
exactly 4 keys. -/
def validAttachment (a : JsP) : Bool :=
  jsTypeof a == "object" && attHas a "extracted_content" && attHas a "file_name" &&
    attHas a "file_size" && attHas a "file_type" && keysCount a == 4

/-- The backend responses visible to the modelled operations. -/
structure Env where
  accountOrg : String
  chats : List String
  sendBody : String
  titleResp : Option String

/-- The client's single piece of mutable state: `claudejs.orgUUID`,
`undefined` (`none`) until populated. -/
structure CState where
  orgUUID : Option String

/-- Is `!claudejs.orgUUID` true (`undefined` or the empty string)? -/
def orgFalsy : Option String → Bool
  | none => true
  | some s => s.isEmpty

/-- The text `claudejs.orgUUID` contributes to a URL: string
concatenation renders `undefined` as `"undefined"`. -/
def orgText : Option String → String
  | none => "undefined"
  | some s => s

/-- One HTTP request, identified by endpoint and the body fields the
code fills in. -/
inductive Req where
  | account
  | chatList (org : String)
  | chatGet (org chat : String)
  | chatDelete (org chat : String)
  | chatPut (org chat : String) (name : JsP)
  | appendMessage (org chat : String) (text : JsP) (atts : List JsP)
  | genTitle (org chat : String) (hint : JsP)

/-- How an operation finishes: a returned value (`none` for
`undefined`), an early `return console.error(...)` or
`return console.warn(...)`, or a thrown error. -/
inductive Outcome where
  | ret (v : Option String)
  | consoleError (msg : String)
  | consoleWarn (msg : String)
  | thrown (msg : String)

/-- The observable result of one operation: issued requests in order,
the state left behind, and the outcome. -/
structure OpResult where
  reqs : List Req
  state : CState
  outcome : Outcome

/-- `if (!Array.isArray(attachments)) attachments = Array.of(attachments)`:
wrap a non-array argument in a one-element array. -/
def wrapArr : JsP → List JsP
  | JsP.arr vs => vs
  | v => [v]

/-- The name of a thrown decoder error. -/
def errName : JsErr → String
  | JsErr.syntaxError => "SyntaxError"
  | JsErr.typeError => "TypeError"

/-- `claudejs.getUserDetails`: fetch `/account`; populate the cached
`orgUUID` with `memberships[0].organization.uuid` if it is falsy. -/
def getUserDetails (env : Env) (st : CState) : List Req × CState :=
  ([Req.account], if orgFalsy st.orgUUID then { orgUUID := some env.accountOrg } else st)

/-- `claudejs.getAllChatsDetails`: ensure the cached `orgUUID` via
`getUserDetails` when falsy, then fetch the chat list.  (The unnamed
variant's `getAllChatsDetails` issues the same requests.) -/
def getAllChatsDetails (env : Env) (st : CState) : List Req × CState × List String :=
  let pre := if orgFalsy st.orgUUID then getUserDetails env st else ([], st)
  (pre.1 ++ [Req.chatList (orgText pre.2.orgUUID)], pre.2, env.chats)

/-- `claudejs.getChatDetails` (src/index.js lines 133-145). -/
def getChatDetails (env : Env) (st : CState) (chatIndex : JsP) : OpResult :=
  let fetched := getAllChatsDetails env st
  let r1 := fetched.1
  let st1 := fetched.2.1
  let chats := fetched.2.2
  if jsTypeof chatIndex ≠ "number" ∧ jsFalsy chatIndex then
    ⟨r1, st1, Outcome.consoleError "Chat index must be specified"⟩
  else if jsTypeof chatIndex ≠ "number" then
    ⟨r1, st1, Outcome.consoleError "Chat index must be a number"⟩
  else if chats.length = 0 then
    ⟨r1, st1, Outcome.consoleWarn "No chats found"⟩
  else if idxInt chatIndex < 0 ∨ (chats.length : Int) ≤ idxInt chatIndex then
    ⟨r1, st1, Outcome.consoleError "Chat index is out of bounds"⟩
  else
    let pre2 := if orgFalsy st1.orgUUID then getUserDetails env st1 else ([], st1)
    let chatUUID := chats.getD (idxInt chatIndex).toNat ""
    ⟨r1 ++ pre2.1 ++ [Req.chatGet (orgText pre2.2.orgUUID) chatUUID], pre2.2, Outcome.ret none⟩

/-- `claudejs.deleteChat` (src/index.js lines 152-165). -/
def deleteChat (env : Env) (st : CState) (chatIndex : JsP) : OpResult :=
  let fetched := getAllChatsDetails env st
  let r1 := fetched.1
  let st1 := fetched.2.1
  let chats := fetched.2.2
  if jsTypeof chatIndex ≠ "number" ∧ jsFalsy chatIndex then
    ⟨r1, st1, Outcome.consoleError "Chat index must be specified"⟩
  else if jsTypeof chatIndex ≠ "number" then
    ⟨r1, st1, Outcome.consoleError "Chat index must be a number"⟩
  else if chats.length = 0 then
    ⟨r1, st1, Outcome.consoleWarn "No chats found"⟩
  else if idxInt chatIndex < 0 ∨ (chats.length : Int) ≤ idxInt chatIndex then
    ⟨r1, st1, Outcome.consoleError "Chat index is out of bounds"⟩
  else
    let pre2 := if orgFalsy st1.orgUUID then getUserDetails env st1 else ([], st1)
    let chatUUID := chats.getD (idxInt chatIndex).toNat ""
    ⟨r1 ++ pre2.1 ++ [Req.chatDelete (orgText pre2.2.orgUUID) chatUUID], pre2.2, Outcome.ret none⟩

/-- `claudejs.sendMessage` (src/index.js lines 190-244).  The attachment
shape check at lines 205-216 only logs `Invalid attachments` — it has no
`return` — so it neither changes the outcome nor stops the request; it
is therefore absent from the control flow here.  When `returnResponse`
is truthy the response text is decoded, and a decoder exception
propagates as a thrown error. -/
def sendMessage (env : Env) (st : CState)
    (chatIndex message attachments returnResponse : JsP) : OpResult :=
  let fetched := getAllChatsDetails env st
  let r1 := fetched.1
  let st1 := fetched.2.1
  let chats := fetched.2.2
  let atts := wrapArr attachments
  if jsTypeof chatIndex ≠ "number" ∧ jsFalsy chatIndex then
    ⟨r1, st1, Outcome.consoleError "Chat index must be specified"⟩
  else if jsTypeof chatIndex ≠ "number" then
    ⟨r1, st1, Outcome.consoleError "Chat index must be a number"⟩
  else if chats.length = 0 then
    ⟨r1, st1, Outcome.consoleWarn "No chats found"⟩
  else if idxInt chatIndex < 0 ∨ (chats.length : Int) ≤ idxInt chatIndex then
    ⟨r1, st1, Outcome.consoleError "Chat index is out of bounds"⟩
  else if jsFalsy message ∧ atts.length = 0 then
    ⟨r1, st1, Outcome.consoleError "Either message or attachments must be included"⟩
  else if ¬ jsFalsy message ∧ jsTypeof message ≠ "string" then
    ⟨r1, st1, Outcome.consoleError "Message must be a string"⟩
  else if ¬ jsFalsy message ∧ (msgLength message = 0 ∨ msgTrimEmpty message) then
    ⟨r1, st1, Outcome.consoleError "Message must not be empty"⟩
  else if jsTypeof returnResponse ≠ "boolean" then
    ⟨r1, st1, Outcome.consoleError "returnResponse must be a boolean value"⟩
  else
    let pre2 := if orgFalsy st1.orgUUID then getUserDetails env st1 else ([], st1)
    let chatUUID := chats.getD (idxInt chatIndex).toNat ""
    let req := Req.appendMessage (orgText pre2.2.orgUUID) chatUUID
      (if jsFalsy message then JsP.str "" else message) atts
    if ¬ jsFalsy returnResponse then
      match decode env.sendBody with
      | Except.ok s => ⟨r1 ++ pre2.1 ++ [req], pre2.2, Outcome.ret (some s)⟩
      | Except.error e => ⟨r1 ++ pre2.1 ++ [req], pre2.2, Outcome.thrown (errName e)⟩
    else ⟨r1 ++ pre2.1 ++ [req], pre2.2, Outcome.ret none⟩

/-- `claudejs.generateChatTitle` (src/index.js lines 253-280). -/
def generateChatTitle (env : Env) (st : CState) (chatIndex messageHint : JsP) : OpResult :=
  let fetched := getAllChatsDetails env st
  let r1 := fetched.1
  let st1 := fetched.2.1
  let chats := fetched.2.2
  if jsTypeof chatIndex ≠ "number" ∧ jsFalsy chatIndex then
    ⟨r1, st1, Outcome.consoleError "Chat index must be specified"⟩
  else if jsTypeof chatIndex ≠ "number" then
    ⟨r1, st1, Outcome.consoleError "Chat index must be a number"⟩
  else if chats.length = 0 then
    ⟨r1, st1, Outcome.consoleWarn "No chats found"⟩
  else if idxInt chatIndex < 0 ∨ (chats.length : Int) ≤ idxInt chatIndex then
    ⟨r1, st1, Outcome.consoleError "Chat index is out of bounds"⟩
  else if jsFalsy messageHint then
    ⟨r1, st1, Outcome.consoleError "Message hint is required"⟩
  else if jsTypeof messageHint ≠ "string" then
    ⟨r1, st1, Outcome.consoleError "Message hint must be a string"⟩
  else if msgLength messageHint = 0 ∨ msgTrimEmpty messageHint then
    ⟨r1, st1, Outcome.consoleError "Message hint must not be empty"⟩
  else
    let pre2 := if orgFalsy st1.orgUUID then getUserDetails env st1 else ([], st1)
    let chatUUID := chats.getD (idxInt chatIndex).toNat ""
    ⟨r1 ++ pre2.1 ++ [Req.genTitle (orgText pre2.2.orgUUID) chatUUID messageHint], pre2.2,
      Outcome.ret env.titleResp⟩

/-- `claudejs.renameChatTitle` (src/index.js lines 288-304). -/
def renameChatTitle (env : Env) (st : CState) (chatIndex newName : JsP) : OpResult :=
  let fetched := getAllChatsDetails env st
  let r1 := fetched.1
  let st1 := fetched.2.1
  let chats := fetched.2.2
  if jsTypeof chatIndex ≠ "number" ∧ jsFalsy chatIndex then
    ⟨r1, st1, Outcome.consoleError "Chat index must be specified"⟩
  else if jsTypeof chatIndex ≠ "number" then
    ⟨r1, st1, Outcome.consoleError "Chat index must be a number"⟩
  else if chats.length = 0 then
    ⟨r1, st1, Outcome.consoleWarn "No chats found"⟩
  else if idxInt chatIndex < 0 ∨ (chats.length : Int) ≤ idxInt chatIndex then
    ⟨r1, st1, Outcome.consoleError "Chat index is out of bounds"⟩
  else
    let pre2 := if orgFalsy st1.orgUUID then getUserDetails env st1 else ([], st1)
    let chatUUID := chats.getD (idxInt chatIndex).toNat ""
    ⟨r1 ++ pre2.1 ++ [Req.chatPut (orgText pre2.2.orgUUID) chatUUID newName], pre2.2,
      Outcome.ret none⟩

/-- `claudejs.getChatMessagesDetails` of the unnamed variant
(src/unnamed/part_000 lines 430-441): same fetch, but a non-numeric or
out-of-bounds index throws an `Error` instead of logging, and there is
no separate `must be specified` check. -/
def getChatMessagesDetails (env : Env) (st : CState) (chatIndex : JsP) : OpResult :=
  let fetched := getAllChatsDetails env st
  let r1 := fetched.1
  let st1 := fetched.2.1
  let chats := fetched.2.2
  if jsTypeof chatIndex ≠ "number" then
    ⟨r1, st1, Outcome.thrown "Chat index must be a number"⟩
  else if chats.length = 0 then
    ⟨r1, st1, Outcome.consoleWarn "No chats found"⟩
  else if idxInt chatIndex < 0 ∨ (chats.length : Int) ≤ idxInt chatIndex then
    ⟨r1, st1, Outcome.thrown "Chat index is out of bounds"⟩
  else
    let pre2 := if orgFalsy st1.orgUUID then getUserDetails env st1 else ([], st1)
    let chatUUID := chats.getD (idxInt chatIndex).toNat ""
    ⟨r1 ++ pre2.1 ++ [Req.chatGet (orgText pre2.2.orgUUID) chatUUID], pre2.2, Outcome.ret none⟩

/-! ## The spec's synthesized chunk for re-decoding (claim C6)

The spec re-wraps a decoder output `s` as the single line
`data: {"completion": s}`.  These definitions follow the spec's words:
the JSON text embeds `s` as a JSON string literal with the standard
`JSON.stringify` escaping. -/

/-- One hexadecimal digit, lowercase. -/
def hexDigit (n : Nat) : Char :=
  if n < 10 then Char.ofNat ('0'.toNat + n) else Char.ofNat ('a'.toNat + (n - 10))

/-- How `JSON.stringify` escapes one character inside a string literal:
quote and backslash get a backslash, the named control characters get
their short escapes, other control characters get `\u00XX`, everything
else is verbatim. -/
def escChar (c : Char) : List Char :=
  if c = '"' then ['\\', '"']
  else if c = '\\' then ['\\', '\\']
  else if c = Char.ofNat 8 then ['\\', 'b']
  else if c = '\t' then ['\\', 't']
  else if c = '\n' then ['\\', 'n']
  else if c = Char.ofNat 12 then ['\\', 'f']
  else if c = '\r' then ['\\', 'r']
  else if c.toNat < 0x20 then
    ['\\', 'u', '0', '0', hexDigit (c.toNat / 16), hexDigit (c.toNat % 16)]
  else [c]

/-- Escape a whole string for embedding in a JSON string literal. -/
def escapeStr (s : List Char) : List Char := (s.map escChar).flatten

/-- The JSON text `{"completion": s}` the spec synthesizes around a
decoded string `s` (claim C6). -/
def synthCompletionJson (s : List Char) : List Char :=
  "\x7b\"completion\": \"".data ++ escapeStr s ++ "\"\x7d".data

/-- The separator characters of `'data: '`. -/
def dataPref : List Char := "data: ".data

/-! ## Predicates used by the claims -/

/-- Claim C1's well-formed chunk line with fragment `f`: the literal
prefix `'data: '` followed by CR/LF-free JSON text that contains no
further `'data: '` occurrence and parses to an object whose `completion`
member is the string `f`. -/
def goodLine (l f : List Char) : Prop :=
  ∃ j ms, l = dataPref ++ j ∧ (∀ c ∈ j, lineSep c = false) ∧ hasData j = false ∧
    jsonParse j = some (Json.obj ms) ∧ objGet ms ("completion".data) = some (Json.str f)

/-- A request issued while resolving the chat list, before any
validation: the account fetch or the chat-list fetch. -/
def preReq (r : Req) : Prop :=
  r = Req.account ∨ ∃ org, r = Req.chatList org

/-- An outcome signalling a validation error or the empty-chat-list
warning (an early `return console.error`/`console.warn`). -/
def failSignal (o : Outcome) : Prop :=
  (∃ m, o = Outcome.consoleError m) ∨ (∃ m, o = Outcome.consoleWarn m)

/-! ## Lemmas about `splitLines` -/

theorem splitLines_ne_nil : ∀ cs : List Char, splitLines cs ≠ []
  | [] => by simp [splitLines]
  | c :: cs => by
    rw [splitLines]
    split
    · split
      · exact splitLines_ne_nil cs
      · simp
    · split <;> simp

/-- A separator-free string is a single token. -/
theorem splitLines_no_sep (l : List Char) (h : ∀ c ∈ l, lineSep c = false) :
    splitLines l = [l] := by
  induction l with
  | nil => rfl
  | cons c cs ih =>
    have hc : lineSep c = false := h c (by simp)
    have hcs : ∀ x ∈ cs, lineSep x = false := fun x hx => h x (by simp [hx])
    rw [splitLines, if_neg (by simp [hc]), ih hcs]

/-- Peeling one separator-free line and one separator off the front. -/
theorem splitLines_line_sep (l : List Char) (hl : ∀ c ∈ l, lineSep c = false)
    (d : Char) (hd : lineSep d = true) (c : Char) (hc : lineSep c = false)
    (rest : List Char) :
    splitLines (l ++ d :: c :: rest) = l :: splitLines (c :: rest) := by
  induction l with
  | nil =>
    rw [List.nil_append, splitLines, if_pos hd, if_neg (by simp [headSep, hc])]
  | cons a l ih =>
    have ha : lineSep a = false := hl a (by simp)
    have hl2 : ∀ x ∈ l, lineSep x = false := fun x hx => hl x (by simp [hx])
    rw [List.cons_append, splitLines, if_neg (by simp [ha]), ih hl2]

/-- Appending one trailing separator appends at most a trailing empty
token. -/
theorem splitLines_append_sep (d : Char) (hd : lineSep d = true) (cs : List Char) :
    splitLines (cs ++ [d]) = splitLines cs ++ [[]] ∨
      splitLines (cs ++ [d]) = splitLines cs := by
  induction cs with
  | nil =>
    left
    simp [splitLines, hd, headSep]
  | cons c cs ih =>
    by_cases hc : lineSep c = true
    · match cs with
      | [] =>
        right
        simp [splitLines, hc, hd, headSep]
      | e :: cs2 =>
        rw [List.cons_append, splitLines, if_pos hc, splitLines, if_pos hc]
        have hh : headSep (e :: cs2 ++ [d]) = headSep (e :: cs2) := by
          simp [headSep]
        rw [hh]
        by_cases he : headSep (e :: cs2) = true
        · rw [if_pos he, if_pos he]
          exact ih
        · rw [if_neg he, if_neg he]
          rcases ih with h | h
          · left
            rw [h]
            rfl
          · right
            rw [h]
    · rw [List.cons_append, splitLines, if_neg hc, splitLines, if_neg hc]
      have hne := splitLines_ne_nil cs
      match hcs : splitLines cs with
      | [] => exact absurd hcs hne
      | t :: ts =>
        rcases ih with h | h
        · left
          rw [h, hcs]
          rfl
        · right
          rw [h, hcs]

/-- Prepending a separator adds at most a leading empty token. -/
theorem splitLines_cons_sep (d : Char) (hd : lineSep d = true) (cs : List Char) :
    splitLines (d :: cs) = [] :: splitLines cs ∨ splitLines (d :: cs) = splitLines cs := by
  rw [splitLines, if_pos hd]
  by_cases h : headSep cs = true
  · right
    rw [if_pos h]
  · left
    rw [if_neg h]

/-- In a string of separators only, every token is empty. -/
theorem splitLines_all_sep (cs : List Char) (h : ∀ c ∈ cs, lineSep c = true) :
    ∀ t ∈ splitLines cs, t = [] := by
  induction cs with
  | nil => simp [splitLines]
  | cons c cs ih =>
    have hc : lineSep c = true := h c (by simp)
    have hcs : ∀ x ∈ cs, lineSep x = true := fun x hx => h x (by simp [hx])
    rw [splitLines, if_pos hc]
    by_cases hh : headSep cs = true
    · rw [if_pos hh]
      exact ih hcs
    · rw [if_neg hh]
      intro t ht
      rcases List.mem_cons.mp ht with h1 | h1
      · exact h1
      · exact ih hcs t h1

/-! ## Lemmas about `splitOnData` and `hasData` -/

theorem dataPref_chars : dataPref = 'd' :: 'a' :: 't' :: 'a' :: ':' :: ' ' :: [] := rfl

theorem hasData_cons_step (c : Char) (cs : List Char)
    (hne : ∀ tail, c = 'd' → cs = 'a' :: 't' :: 'a' :: ':' :: ' ' :: tail → False) :
    hasData (c :: cs) = hasData cs := by
  rw [hasData]
  exact hne

/-- A string without an occurrence of `'data: '` is not split. -/
theorem splitOnData_no_occ (cs : List Char) (h : hasData cs = false) :
    splitOnData cs = [cs] := by
  induction cs using splitOnData.induct with
  | case1 rest ih => simp [hasData] at h
  | case2 c cs hne hsplit ih =>
      rw [hasData_cons_step c cs hne] at h
      rw [ih h] at hsplit
      exact absurd hsplit (by simp)
  | case3 c cs hne t ts hsplit ih =>
      rw [hasData_cons_step c cs hne] at h
      rw [splitOnData]
      · rw [ih h]
      · exact hne
  | case4 => rfl

/-- Splitting a string that starts with `'data: '` yields a leading
empty part followed by the split of the rest. -/
theorem splitOnData_pref (cs : List Char) :
    splitOnData (dataPref ++ cs) = [] :: splitOnData cs := by
  rw [dataPref_chars, List.cons_append, List.cons_append, List.cons_append,
    List.cons_append, List.cons_append, List.cons_append, List.nil_append, splitOnData]

/-- A string without the letter `d` has no `'data: '` occurrence. -/
theorem hasData_no_d (cs : List Char) (h : 'd' ∉ cs) : hasData cs = false := by
  induction cs using hasData.induct with
  | case1 tail => exact absurd (by simp) h
  | case2 c cs hne ih =>
      rw [hasData_cons_step c cs hne]
      exact ih fun hc => h (by simp [hc])
  | case3 => rfl

/-! ## Lemmas about `jsTrim` -/

theorem dropWhile_idem (p : Char → Bool) (l : List Char) :
    (l.dropWhile p).dropWhile p = l.dropWhile p := by
  induction l with
  | nil => rfl
  | cons c cs ih =>
    by_cases h : p c = true
    · simp [List.dropWhile, h, ih]
    · simp [List.dropWhile, h]

theorem dropWhile_head_fail (p : Char → Bool) (l : List Char)
    (h : ∀ c, l.head? = some c → p c = false) : l.dropWhile p = l := by
  match l with
  | [] => rfl
  | c :: cs => simp [List.dropWhile, h c rfl]

theorem head_trimLeft_fail (l : List Char) (c : Char)
    (h : (trimLeft l).head? = some c) : trimWs c = false := by
  induction l with
  | nil => simp [trimLeft, List.dropWhile] at h
  | cons a l ih =>
    by_cases ha : trimWs a = true
    · rw [trimLeft, List.dropWhile] at h
      simp only [ha] at h
      exact ih (by rwa [trimLeft])
    · rw [trimLeft, List.dropWhile] at h
      simp only [ha] at h
      simp only [Bool.false_eq_true, if_false, List.head?_cons, Option.some.injEq] at h
      rw [← h]
      simpa using ha

theorem trimLeft_trimLeft (l : List Char) : trimLeft (trimLeft l) = trimLeft l :=
  dropWhile_idem trimWs l

theorem trimRight_prefix (l : List Char) : trimRight l <+: l := by
  have h : trimLeft l.reverse <:+ l.reverse := List.dropWhile_suffix trimWs
  rcases h with ⟨t, ht⟩
  refine ⟨t.reverse, ?_⟩
  rw [trimRight, ← List.reverse_append, ht, List.reverse_reverse]

theorem trimRight_trimRight (l : List Char) : trimRight (trimRight l) = trimRight l := by
  rw [trimRight, trimRight, List.reverse_reverse, trimLeft_trimLeft]

/-- `trim()` is idempotent. -/
theorem jsTrim_idem (l : List Char) : jsTrim (jsTrim l) = jsTrim l := by
  rw [jsTrim, jsTrim]
  have h1 : trimLeft (trimRight (trimLeft l)) = trimRight (trimLeft l) := by
    apply dropWhile_head_fail
    intro c hc
    rcases trimRight_prefix (trimLeft l) with ⟨t, ht⟩
    have : (trimLeft l).head? = some c := by
      rw [← ht]
      match hm : trimRight (trimLeft l) with
      | [] => rw [hm] at hc; simp at hc
      | a :: as => rw [hm] at hc; simp at hc; simp [hm, hc]
    exact head_trimLeft_fail l c this
  rw [h1, trimRight_trimRight]

/-! ## Round trip: parsing the synthesized JSON string literal -/

theorem hexVal_hexDigit : ∀ k, k < 16 → hexVal (hexDigit k) = some k := by decide

theorem codeToChar_toNat (c : Char) : codeToChar c.toNat = c := by
  rw [codeToChar, if_pos (show c.toNat.isValidChar from c.valid), Char.ofNat_toNat]

theorem escapeStr_cons (c : Char) (s : List Char) :
    escapeStr (c :: s) = escChar c ++ escapeStr s := by
  simp [escapeStr]

/-- Parsing an escaped string body recovers the original string. -/
theorem parseStringBody_escape : ∀ (s rest : List Char),
    parseStringBody (escapeStr s ++ '"' :: rest) = some (s, rest)
  | [], rest => by simp [escapeStr, parseStringBody]
  | c :: s, rest => by
    have ih := parseStringBody_escape s rest
    rw [escapeStr_cons, List.append_assoc]
    by_cases h1 : c = '"'
    · subst h1
      simp [escChar, parseStringBody, parseStringEsc, ih]
    · by_cases h2 : c = '\\'
      · subst h2
        simp [escChar, parseStringBody, parseStringEsc, ih]
      · by_cases h3 : c = Char.ofNat 8
        · subst h3
          simp [escChar, parseStringBody, parseStringEsc, ih]
        · by_cases h4 : c = '\t'
          · subst h4
            simp [escChar, parseStringBody, parseStringEsc, ih]
          · by_cases h5 : c = '\n'
            · subst h5
              simp [escChar, parseStringBody, parseStringEsc, ih]
            · by_cases h6 : c = Char.ofNat 12
              · subst h6
                simp [escChar, parseStringBody, parseStringEsc, ih]
              · by_cases h7 : c = '\r'
                · subst h7
                  simp [escChar, parseStringBody, parseStringEsc, ih]
                · by_cases h8 : c.toNat < 0x20
                  · rw [escChar, if_neg h1, if_neg h2, if_neg h3, if_neg h4, if_neg h5,
                      if_neg h6, if_neg h7, if_pos h8]
                    have e1 : hexVal (hexDigit (c.toNat / 16)) = some (c.toNat / 16) :=
                      hexVal_hexDigit _ (by omega)
                    have e2 : hexVal (hexDigit (c.toNat % 16)) = some (c.toNat % 16) :=
                      hexVal_hexDigit _ (by omega)
                    have e0 : hexVal '0' = some 0 := by decide
                    have harith : c.toNat / 16 * 16 + c.toNat % 16 = c.toNat := by omega
                    simp [parseStringBody, parseStringEsc, parseStringHex, e0, e1, e2, ih,
                      harith, codeToChar_toNat]
                  · rw [escChar, if_neg h1, if_neg h2, if_neg h3, if_neg h4, if_neg h5,
                      if_neg h6, if_neg h7, if_neg h8]
                    simp [parseStringBody, h1, h2, h8, ih]

/-- No character emitted by the escaper is a CR or LF. -/
theorem lineSep_escChar (c : Char) : ∀ x ∈ escChar c, lineSep x = false := by
  by_cases h1 : c = '"'
  · subst h1; decide
  · by_cases h2 : c = '\\'
    · subst h2; decide
    · by_cases h3 : c = Char.ofNat 8
      · subst h3; decide
      · by_cases h4 : c = '\t'
        · subst h4; decide
        · by_cases h5 : c = '\n'
          · subst h5; decide
          · by_cases h6 : c = Char.ofNat 12
            · subst h6; decide
            · by_cases h7 : c = '\r'
              · subst h7; decide
              · by_cases h8 : c.toNat < 0x20
                · rw [escChar, if_neg h1, if_neg h2, if_neg h3, if_neg h4, if_neg h5,
                    if_neg h6, if_neg h7, if_pos h8]
                  intro x hx
                  simp only [List.mem_cons, List.not_mem_nil, or_false] at hx
                  have hd0 : ∀ k, k < 16 → lineSep (hexDigit k) = false := by decide
                  rcases hx with rfl | rfl | rfl | rfl | rfl | rfl
                  · decide
                  · decide
                  · decide
                  · decide
                  · exact hd0 _ (by omega)
                  · exact hd0 _ (by omega)
                · rw [escChar, if_neg h1, if_neg h2, if_neg h3, if_neg h4, if_neg h5,
                    if_neg h6, if_neg h7, if_neg h8]
                  intro x hx
                  simp only [List.mem_cons, List.not_mem_nil, or_false] at hx
                  subst hx
                  simp [lineSep, h7, h5]

theorem escapeStr_no_lineSep (s : List Char) : ∀ x ∈ escapeStr s, lineSep x = false := by
  intro x hx
  rw [escapeStr] at hx
  rcases List.mem_flatten.mp hx with ⟨l, hl, hxl⟩
  rcases List.mem_map.mp hl with ⟨c, _, rfl⟩
  exact lineSep_escChar c x hxl

/-! ## Parsing the synthesized chunk; the decoder on single lines -/

theorem skipWs_cons (c : Char) (r : List Char) (h : jsonWs c = false) :
    skipWs (c :: r) = c :: r := by
  simp [skipWs, List.dropWhile, h]

theorem skipWs_space (r : List Char) : skipWs (' ' :: r) = skipWs r := by
  simp [skipWs, List.dropWhile, jsonWs]

theorem synthCompletionJson_eq (s : List Char) :
    synthCompletionJson s =
      '{' :: '"' :: ("completion".data ++ '"' :: ':' :: ' ' ::
        ('"' :: (escapeStr s ++ '"' :: '}' :: []))) := by
  have hA : ("\x7b\"completion\": \"".data : List Char) =
      '{' :: '"' :: ("completion".data ++ ['"', ':', ' ', '"']) := by decide
  have hB : ("\"\x7d".data : List Char) = ['"', '}'] := by decide
  rw [synthCompletionJson, hA, hB]
  simp [List.append_assoc]

theorem parseValue_synth (s : List Char) (f : Nat) :
    parseValue (f + 3) (synthCompletionJson s) =
      some (Json.obj [("completion".data, Json.str s)], []) := by
  have hkeyesc : escapeStr ("completion".data) = "completion".data := by decide
  have hkey : parseStringBody
      ("completion".data ++ '"' :: ':' :: ' ' :: ('"' :: (escapeStr s ++ '"' :: '}' :: []))) =
      some ("completion".data, ':' :: ' ' :: ('"' :: (escapeStr s ++ '"' :: '}' :: []))) := by
    conv_lhs => rw [show ("completion".data : List Char) = escapeStr ("completion".data) from
      hkeyesc.symm]
    exact parseStringBody_escape _ _
  have hval : parseStringBody (escapeStr s ++ '"' :: '}' :: []) = some (s, '}' :: []) :=
    parseStringBody_escape s ('}' :: [])
  rw [synthCompletionJson_eq]
  rw [parseValue]
  rw [if_pos rfl]
  rw [skipWs_cons _ _ (by decide)]
  rw [parseMembersFirst]
  rw [if_neg (by decide), if_pos rfl]
  rw [hkey]
  dsimp only
  rw [skipWs_cons _ _ (by decide)]
  simp only []
  rw [skipWs_space, skipWs_cons _ _ (by decide)]
  rw [parseValue]
  rw [if_neg (by decide), if_neg (by decide), if_pos rfl]
  rw [hval]
  simp only [Option.map_some']
  rw [skipWs_cons _ _ (by decide)]
  rw [parseMembersRest]
  rw [if_pos rfl]

theorem jsonParse_synth (s : List Char) :
    jsonParse (synthCompletionJson s) = some (Json.obj [("completion".data, Json.str s)]) := by
  have hge : 1 ≤ (synthCompletionJson s).length := by
    rw [synthCompletionJson_eq]
    simp
  rw [jsonParse]
  rw [show skipWs (synthCompletionJson s) = synthCompletionJson s from by
    rw [synthCompletionJson_eq]
    exact skipWs_cons _ _ (by decide)]
  rw [show 2 * (synthCompletionJson s).length + 2 =
    (2 * (synthCompletionJson s).length - 1) + 3 from by omega]
  rw [parseValue_synth]
  simp [skipWs]

theorem jsonParse_undefined : jsonParse ("undefined".data) = none := rfl

/-- The decoder on one non-empty separator-free line. -/
theorem decodeChunks_single (l : List Char) (hne : l ≠ [])
    (hns : ∀ c ∈ l, lineSep c = false) :
    decodeChunks l = match chunkCompletion l with
      | Except.error e => Except.error e
      | Except.ok v => Except.ok (jsTrim (joinPiece v)) := by
  rw [decodeChunks, splitLines_no_sep l hns]
  have hf : ([l].filter fun x => !x.isEmpty) = [l] := by
    match l, hne with
    | x :: xs, _ => simp [List.filter]
  rw [hf]
  cases hc : chunkCompletion l with
  | error e => simp [mapChunks, hc]
  | ok v => simp [mapChunks, hc]

/-- A good chunk line: `'data: '` followed by `'data: '`-free JSON text
parsing to an object whose `completion` is the string `f`. -/
theorem chunkCompletion_good (j ms f)
    (hnd : hasData j = false) (hp : jsonParse j = some (Json.obj ms))
    (hc : objGet ms ("completion".data) = some (Json.str f)) :
    chunkCompletion (dataPref ++ j) = Except.ok (some (Json.str f)) := by
  rw [chunkCompletion]
  rw [splitOnData_pref, splitOnData_no_occ j hnd]
  simp only [List.get?, Option.getD_some]
  rw [hp]
  simp [jsGetCompletion, hc]

/-! ## Decoding well-formed chunk blocks -/

theorem mapChunks_good : ∀ (lines frags : List (List Char)),
    List.Forall₂ goodLine lines frags →
    mapChunks lines = Except.ok (frags.map fun f => some (Json.str f)) := by
  intro lines frags h
  induction h with
  | nil => rfl
  | @cons l f ls fs hg htail ih =>
    rcases hg with ⟨j, ms, rfl, hns, hnd, hp, hc⟩
    rw [mapChunks, chunkCompletion_good j ms f hnd hp hc, ih]
    rfl

theorem goodLine_props (l f : List Char) (h : goodLine l f) :
    l ≠ [] ∧ ∀ c ∈ l, lineSep c = false := by
  rcases h with ⟨j, ms, rfl, hns, hnd, hp, hc⟩
  constructor
  · simp [dataPref_chars]
  · intro c hc2
    rcases List.mem_append.mp hc2 with h1 | h1
    · rw [dataPref_chars] at h1
      simp only [List.mem_cons, List.not_mem_nil, or_false] at h1
      rcases h1 with rfl | rfl | rfl | rfl | rfl | rfl <;> decide
    · exact hns c h1

theorem goodLines_props : ∀ {lines frags : List (List Char)},
    List.Forall₂ goodLine lines frags →
    ∀ x ∈ lines, x ≠ [] ∧ ∀ c ∈ x, lineSep c = false := by
  intro lines frags h
  induction h with
  | nil => simp
  | @cons l f ls fs hg htail ih =>
    intro x hx
    rcases List.mem_cons.mp hx with rfl | hx2
    · exact goodLine_props x f hg
    · exact ih x hx2

theorem splitLines_intercalate : ∀ (lines : List (List Char)),
    (∀ l ∈ lines, l ≠ [] ∧ ∀ c ∈ l, lineSep c = false) → lines ≠ [] →
    splitLines (List.intercalate ['\n'] lines) = lines
  | [], _, hne => absurd rfl hne
  | [l], h, _ => by
    rw [show List.intercalate ['\n'] [l] = l from by
      simp [List.intercalate, List.intersperse]]
    exact splitLines_no_sep l (h l (by simp)).2
  | l :: l2 :: rest, h, _ => by
    have h1 := h l (by simp)
    have h2 := h l2 (by simp)
    have hrest : ∀ x ∈ (l2 :: rest), x ≠ [] ∧ ∀ c ∈ x, lineSep c = false :=
      fun x hx => h x (by simp [hx])
    have hstep : List.intercalate ['\n'] (l :: l2 :: rest) =
        l ++ '\n' :: List.intercalate ['\n'] (l2 :: rest) := by
      simp [List.intercalate, List.intersperse]
    rcases List.exists_cons_of_ne_nil h2.1 with ⟨c, t, hl2⟩
    have hc : lineSep c = false := h2.2 c (by rw [hl2]; simp)
    have htail : ∃ tail, List.intercalate ['\n'] (l2 :: rest) = c :: tail := by
      rw [hl2]
      match rest with
      | [] => exact ⟨t, by simp [List.intercalate, List.intersperse]⟩
      | r :: rs => exact ⟨t ++ '\n' :: List.intercalate ['\n'] (r :: rs), by
          simp [List.intercalate, List.intersperse]⟩
    rcases htail with ⟨tail, htail⟩
    rw [hstep, htail]
    rw [splitLines_line_sep l h1.2 '\n' (by decide) c hc tail]
    rw [← htail]
    rw [splitLines_intercalate (l2 :: rest) hrest (by simp)]

/-- The decoder on a block of well-formed chunk lines joined by single
newlines. -/
theorem decodeChunks_good (lines frags : List (List Char))
    (h : List.Forall₂ goodLine lines frags) :
    decodeChunks (List.intercalate ['\n'] lines) = Except.ok (jsTrim frags.flatten) := by
  match lines, frags, h with
  | [], [], _ => rfl
  | l :: ls, f :: fs, h =>
    have hall := goodLines_props h
    rw [decodeChunks, splitLines_intercalate (l :: ls) hall (by simp)]
    have hfilter : ((l :: ls).filter fun x => !x.isEmpty) = l :: ls := by
      rw [List.filter_eq_self]
      intro x hx
      match x, (hall x hx).1 with
      | y :: ys, _ => rfl
    rw [hfilter, mapChunks_good (l :: ls) (f :: fs) h]
    simp only [List.map_map]
    rw [show (joinPiece ∘ fun f => some (Json.str f)) = id from by
      funext f
      rfl]
    rw [List.map_id]

/-- The spec's re-wrapped single line for C6. -/
theorem decodeChunks_rewrap (input s : List Char)
    (hok : decodeChunks input = Except.ok s)
    (hnd : hasData (synthCompletionJson s) = false) :
    decodeChunks (dataPref ++ synthCompletionJson s) = Except.ok s := by
  have htrim : jsTrim s = s := by
    rw [decodeChunks] at hok
    cases hm : mapChunks ((splitLines input).filter fun l => !l.isEmpty) with
    | error e =>
      rw [hm] at hok
      simp at hok
    | ok vs =>
      rw [hm] at hok
      simp only [Except.ok.injEq] at hok
      rw [← hok, jsTrim_idem]
  have hline : decodeChunks (dataPref ++ synthCompletionJson s) =
      match chunkCompletion (dataPref ++ synthCompletionJson s) with
      | Except.error e => Except.error e
      | Except.ok v => Except.ok (jsTrim (joinPiece v)) := by
    apply decodeChunks_single
    · simp [dataPref_chars]
    · intro c hcm
      rcases List.mem_append.mp hcm with h1 | h1
      · rw [dataPref_chars] at h1
        simp only [List.mem_cons, List.not_mem_nil, or_false] at h1
        rcases h1 with rfl | rfl | rfl | rfl | rfl | rfl <;> decide
      · rw [synthCompletionJson_eq] at h1
        rcases List.mem_cons.mp h1 with rfl | h2
        · decide
        · rcases List.mem_cons.mp h2 with rfl | h3
          · decide
          · rcases List.mem_append.mp h3 with h4 | h4
            · have hcompl : ∀ x ∈ ("completion".data : List Char), lineSep x = false := by
                decide
              exact hcompl c h4
            · simp only [List.mem_cons, List.not_mem_nil, or_false] at h4
              rcases h4 with rfl | rfl | rfl | rfl | h6
              · decide
              · decide
              · decide
              · decide
              · rcases List.mem_append.mp h6 with h7 | h7
                · exact escapeStr_no_lineSep s c h7
                · simp only [List.mem_cons, List.not_mem_nil, or_false] at h7
                  rcases h7 with rfl | rfl <;> decide
  rw [hline,
    chunkCompletion_good (synthCompletionJson s) [("completion".data, Json.str s)] s hnd
      (jsonParse_synth s) (by rw [objGet]; rfl)]
  simp only []
  rw [show joinPiece (some (Json.str s)) = s from rfl, htrim]

/-! ## Per-operation lemmas -/

theorem dataPref_line_props (j : List Char) (hns : ∀ c ∈ j, lineSep c = false) :
    dataPref ++ j ≠ [] ∧ ∀ c ∈ dataPref ++ j, lineSep c = false := by
  constructor
  · simp [dataPref_chars]
  · intro c hcm
    rcases List.mem_append.mp hcm with h1 | h1
    · rw [dataPref_chars] at h1
      simp only [List.mem_cons, List.not_mem_nil, or_false] at h1
      rcases h1 with rfl | rfl | rfl | rfl | rfl | rfl <;> decide
    · exact hns c h1

/-- C2: corrected.  Decoding takes the text after the *first occurrence*
of `'data: '` anywhere in the line (not a prefix at the start).  A
retained line with no `'data: '` occurrence at all makes `JSON.parse`
receive the string `"undefined"` and fail with a `SyntaxError`; so does
a `'data: '` whose following text is not valid JSON.  A parsed object
*lacking* the `completion` member does not fail: it contributes the
empty string.  (Decoding is all-or-nothing by construction: `decodeChunks`
returns either one `Except.ok` value or one `Except.error`.) -/
theorem C2_chunk_parsing :
    (∀ l : List Char, l ≠ [] → (∀ c ∈ l, lineSep c = false) → hasData l = false →
      decodeChunks l = Except.error JsErr.syntaxError) ∧
    (∀ j : List Char, (∀ c ∈ j, lineSep c = false) → hasData j = false →
      jsonParse j = none → decodeChunks (dataPref ++ j) = Except.error JsErr.syntaxError) ∧
    (∀ (j : List Char) (ms : List (List Char × Json)), (∀ c ∈ j, lineSep c = false) →
      hasData j = false → jsonParse j = some (Json.obj ms) →
      objGet ms ("completion".data) = none →
      decodeChunks (dataPref ++ j) = Except.ok []) := by
  refine ⟨fun l hne hns hnd => ?_, fun j hns hnd hp => ?_, fun j ms hns hnd hp hc => ?_⟩
  · rw [decodeChunks_single l hne hns, chunkCompletion, splitOnData_no_occ l hnd]
    simp only [List.get?, Option.getD_none]
    rw [jsonParse_undefined]
  · have hprops := dataPref_line_props j hns
    rw [decodeChunks_single _ hprops.1 hprops.2, chunkCompletion, splitOnData_pref,
      splitOnData_no_occ j hnd]
    simp only [List.get?, Option.getD_some]
    rw [hp]
  · have hprops := dataPref_line_props j hns
    rw [decodeChunks_single _ hprops.1 hprops.2, chunkCompletion, splitOnData_pref,
      splitOnData_no_occ j hnd]
    simp only [List.get?, Option.getD_some]
    rw [hp]
    simp [jsGetCompletion, hc, joinPiece, jsTrim, trimLeft, trimRight]

theorem getAllChats_state (env : Env) (st : CState) :
    (getAllChatsDetails env st).2.1 = (getUserDetails env st).2 := by
  rw [getAllChatsDetails, getUserDetails]
  by_cases h : orgFalsy st.orgUUID = true
  · rw [if_pos h]
  · rw [if_neg h, if_neg h]

theorem populate_idem (env : Env) (st : CState) :
    (getUserDetails env (getUserDetails env st).2).2 = (getUserDetails env st).2 := by
  rw [getUserDetails, getUserDetails]
  by_cases h : orgFalsy st.orgUUID = true
  · rw [if_pos h]
    by_cases h2 : orgFalsy (CState.mk (some env.accountOrg)).orgUUID = true
    · rw [if_pos h2]
    · rw [if_neg h2]
  · rw [if_neg h, if_neg h]

theorem getAllChats_reqs_pre (env : Env) (st : CState) :
    ∀ r ∈ (getAllChatsDetails env st).1, preReq r := by
  intro r hr
  rw [getAllChatsDetails] at hr
  by_cases h : orgFalsy st.orgUUID = true
  · rw [if_pos h, getUserDetails] at hr
    simp only [List.cons_append, List.nil_append, List.mem_cons, List.not_mem_nil,
      or_false] at hr
    rcases hr with rfl | rfl
    · exact Or.inl rfl
    · exact Or.inr ⟨_, rfl⟩
  · rw [if_neg h] at hr
    simp only [List.nil_append, List.mem_cons, List.not_mem_nil, or_false] at hr
    subst hr
    exact Or.inr ⟨_, rfl⟩

theorem getChatDetails_state (env : Env) (st : CState) (ci : JsP) :
    (getChatDetails env st ci).state = (getUserDetails env st).2 := by
  rw [getChatDetails]
  split
  · exact getAllChats_state env st
  · split
    · exact getAllChats_state env st
    · split
      · exact getAllChats_state env st
      · split
        · exact getAllChats_state env st
        · dsimp only
          rw [getAllChats_state env st]
          by_cases h : orgFalsy ((getUserDetails env st).2).orgUUID = true
          · rw [if_pos h]
            exact populate_idem env st
          · rw [if_neg h]

theorem deleteChat_state (env : Env) (st : CState) (ci : JsP) :
    (deleteChat env st ci).state = (getUserDetails env st).2 := by
  rw [deleteChat]
  repeat' split
  all_goals first
    | exact getAllChats_state env st
    | (dsimp only
       rw [getAllChats_state env st]
       exact populate_idem env st)
    | (dsimp only
       rw [getAllChats_state env st])

theorem step_populated (env : Env) (st : CState) :
    (if orgFalsy ((getUserDetails env st).2).orgUUID = true then
      getUserDetails env ((getUserDetails env st).2)
    else ([], (getUserDetails env st).2)).2 = (getUserDetails env st).2 := by
  by_cases h : orgFalsy ((getUserDetails env st).2).orgUUID = true
  · rw [if_pos h]
    exact populate_idem env st
  · rw [if_neg h]

theorem sendMessage_state (env : Env) (st : CState) (ci m a rr : JsP) :
    (sendMessage env st ci m a rr).state = (getUserDetails env st).2 := by
  rw [sendMessage]
  by_cases h1 : jsTypeof ci ≠ "number" ∧ jsFalsy ci = true
  · rw [if_pos h1]
    exact getAllChats_state env st
  · rw [if_neg h1]
    by_cases h2 : jsTypeof ci ≠ "number"
    · rw [if_pos h2]
      exact getAllChats_state env st
    · rw [if_neg h2]
      by_cases h3 : (getAllChatsDetails env st).2.2.length = 0
      · rw [if_pos h3]
        exact getAllChats_state env st
      · rw [if_neg h3]
        by_cases h4 : idxInt ci < 0 ∨ ((getAllChatsDetails env st).2.2.length : Int) ≤ idxInt ci
        · rw [if_pos h4]
          exact getAllChats_state env st
        · rw [if_neg h4]
          by_cases h5 : jsFalsy m = true ∧ (wrapArr a).length = 0
          · rw [if_pos h5]
            exact getAllChats_state env st
          · rw [if_neg h5]
            by_cases h6 : ¬jsFalsy m = true ∧ jsTypeof m ≠ "string"
            · rw [if_pos h6]
              exact getAllChats_state env st
            · rw [if_neg h6]
              by_cases h7 : ¬jsFalsy m = true ∧ (msgLength m = 0 ∨ msgTrimEmpty m = true)
              · rw [if_pos h7]
                exact getAllChats_state env st
              · rw [if_neg h7]
                by_cases h8 : jsTypeof rr ≠ "boolean"
                · rw [if_pos h8]
                  exact getAllChats_state env st
                · rw [if_neg h8]
                  by_cases h9 : ¬jsFalsy rr = true
                  · rw [if_pos h9]
                    cases decode env.sendBody with
                    | ok s =>
                      dsimp only
                      rw [getAllChats_state env st, step_populated env st]
                    | error e =>
                      dsimp only
                      rw [getAllChats_state env st, step_populated env st]
                  · rw [if_neg h9]
                    dsimp only
                    rw [getAllChats_state env st, step_populated env st]

theorem generateChatTitle_state (env : Env) (st : CState) (ci mh : JsP) :
    (generateChatTitle env st ci mh).state = (getUserDetails env st).2 := by
  rw [generateChatTitle]
  repeat' split
  all_goals first
    | exact getAllChats_state env st
    | (dsimp only
       rw [getAllChats_state env st]
       exact populate_idem env st)
    | (dsimp only
       rw [getAllChats_state env st])

theorem renameChatTitle_state (env : Env) (st : CState) (ci nn : JsP) :
    (renameChatTitle env st ci nn).state = (getUserDetails env st).2 := by
  rw [renameChatTitle]
  repeat' split
  all_goals first
    | exact getAllChats_state env st
    | (dsimp only
       rw [getAllChats_state env st]
       exact populate_idem env st)
    | (dsimp only
       rw [getAllChats_state env st])

theorem getChatMessagesDetails_state (env : Env) (st : CState) (ci : JsP) :
    (getChatMessagesDetails env st ci).state = (getUserDetails env st).2 := by
  rw [getChatMessagesDetails]
  repeat' split
  all_goals first
    | exact getAllChats_state env st
    | (dsimp only
       rw [getAllChats_state env st]
       exact populate_idem env st)
    | (dsimp only
       rw [getAllChats_state env st])

theorem getChatDetails_fail_reqs (env : Env) (st : CState) (ci : JsP)
    (hf : failSignal ((getChatDetails env st ci).outcome)) :
    ∀ r ∈ (getChatDetails env st ci).reqs, preReq r := by
  rw [getChatDetails] at hf ⊢
  by_cases h1 : jsTypeof ci ≠ "number" ∧ jsFalsy ci = true
  · rw [if_pos h1]
    exact getAllChats_reqs_pre env st
  · rw [if_neg h1] at hf ⊢
    by_cases h2 : jsTypeof ci ≠ "number"
    · rw [if_pos h2]
      exact getAllChats_reqs_pre env st
    · rw [if_neg h2] at hf ⊢
      by_cases h3 : (getAllChatsDetails env st).2.2.length = 0
      · rw [if_pos h3]
        exact getAllChats_reqs_pre env st
      · rw [if_neg h3] at hf ⊢
        by_cases h4 : idxInt ci < 0 ∨ ((getAllChatsDetails env st).2.2.length : Int) ≤ idxInt ci
        · rw [if_pos h4]
          exact getAllChats_reqs_pre env st
        · rw [if_neg h4] at hf
          dsimp only at hf
          rcases hf with ⟨m, hm⟩ | ⟨m, hm⟩ <;> cases hm

theorem sendMessage_fail_reqs (env : Env) (st : CState) (ci m a rr : JsP)
    (hf : failSignal ((sendMessage env st ci m a rr).outcome)) :
    ∀ r ∈ (sendMessage env st ci m a rr).reqs, preReq r := by
  rw [sendMessage] at hf ⊢
  by_cases h1 : jsTypeof ci ≠ "number" ∧ jsFalsy ci = true
  · rw [if_pos h1]
    exact getAllChats_reqs_pre env st
  · rw [if_neg h1] at hf ⊢
    by_cases h2 : jsTypeof ci ≠ "number"
    · rw [if_pos h2]
      exact getAllChats_reqs_pre env st
    · rw [if_neg h2] at hf ⊢
      by_cases h3 : (getAllChatsDetails env st).2.2.length = 0
      · rw [if_pos h3]
        exact getAllChats_reqs_pre env st
      · rw [if_neg h3] at hf ⊢
        by_cases h4 : idxInt ci < 0 ∨ ((getAllChatsDetails env st).2.2.length : Int) ≤ idxInt ci
        · rw [if_pos h4]
          exact getAllChats_reqs_pre env st
        · rw [if_neg h4] at hf ⊢
          by_cases h5 : jsFalsy m = true ∧ (wrapArr a).length = 0
          · rw [if_pos h5]
            exact getAllChats_reqs_pre env st
          · rw [if_neg h5] at hf ⊢
            by_cases h6 : ¬jsFalsy m = true ∧ jsTypeof m ≠ "string"
            · rw [if_pos h6]
              exact getAllChats_reqs_pre env st
            · rw [if_neg h6] at hf ⊢
              by_cases h7 : ¬jsFalsy m = true ∧ (msgLength m = 0 ∨ msgTrimEmpty m = true)
              · rw [if_pos h7]
                exact getAllChats_reqs_pre env st
              · rw [if_neg h7] at hf ⊢
                by_cases h8 : jsTypeof rr ≠ "boolean"
                · rw [if_pos h8]
                  exact getAllChats_reqs_pre env st
                · rw [if_neg h8] at hf ⊢
                  by_cases h9 : ¬jsFalsy rr = true
                  · rw [if_pos h9] at hf
                    revert hf
                    cases decode env.sendBody with
                    | ok s =>
                      intro hf
                      rcases hf with ⟨mm, hm⟩ | ⟨mm, hm⟩ <;> cases hm
                    | error e =>
                      intro hf
                      rcases hf with ⟨mm, hm⟩ | ⟨mm, hm⟩ <;> cases hm
                  · rw [if_neg h9] at hf
                    dsimp only at hf
                    rcases hf with ⟨mm, hm⟩ | ⟨mm, hm⟩ <;> cases hm

theorem deleteChat_fail_reqs (env : Env) (st : CState) (ci : JsP)
    (hf : failSignal ((deleteChat env st ci).outcome)) :
    ∀ r ∈ (deleteChat env st ci).reqs, preReq r := by
  rw [deleteChat] at hf ⊢
  by_cases h1 : jsTypeof ci ≠ "number" ∧ jsFalsy ci = true
  · rw [if_pos h1]
    exact getAllChats_reqs_pre env st
  · rw [if_neg h1] at hf ⊢
    by_cases h2 : jsTypeof ci ≠ "number"
    · rw [if_pos h2]
      exact getAllChats_reqs_pre env st
    · rw [if_neg h2] at hf ⊢
      by_cases h3 : (getAllChatsDetails env st).2.2.length = 0
      · rw [if_pos h3]
        exact getAllChats_reqs_pre env st
      · rw [if_neg h3] at hf ⊢
        by_cases h4 : idxInt ci < 0 ∨ ((getAllChatsDetails env st).2.2.length : Int) ≤ idxInt ci
        · rw [if_pos h4]
          exact getAllChats_reqs_pre env st
        · rw [if_neg h4] at hf
          dsimp only at hf
          rcases hf with ⟨m, hm⟩ | ⟨m, hm⟩ <;> cases hm

theorem renameChatTitle_fail_reqs (env : Env) (st : CState) (ci nn : JsP)
    (hf : failSignal ((renameChatTitle env st ci nn).outcome)) :
    ∀ r ∈ (renameChatTitle env st ci nn).reqs, preReq r := by
  rw [renameChatTitle] at hf ⊢
  by_cases h1 : jsTypeof ci ≠ "number" ∧ jsFalsy ci = true
  · rw [if_pos h1]
    exact getAllChats_reqs_pre env st
  · rw [if_neg h1] at hf ⊢
    by_cases h2 : jsTypeof ci ≠ "number"
    · rw [if_pos h2]
      exact getAllChats_reqs_pre env st
    · rw [if_neg h2] at hf ⊢
      by_cases h3 : (getAllChatsDetails env st).2.2.length = 0
      · rw [if_pos h3]
        exact getAllChats_reqs_pre env st
      · rw [if_neg h3] at hf ⊢
        by_cases h4 : idxInt ci < 0 ∨ ((getAllChatsDetails env st).2.2.length : Int) ≤ idxInt ci
        · rw [if_pos h4]
          exact getAllChats_reqs_pre env st
        · rw [if_neg h4] at hf
          dsimp only at hf
          rcases hf with ⟨m, hm⟩ | ⟨m, hm⟩ <;> cases hm

theorem generateChatTitle_fail_reqs (env : Env) (st : CState) (ci mh : JsP)
    (hf : failSignal ((generateChatTitle env st ci mh).outcome)) :
    ∀ r ∈ (generateChatTitle env st ci mh).reqs, preReq r := by
  rw [generateChatTitle] at hf ⊢
  by_cases h1 : jsTypeof ci ≠ "number" ∧ jsFalsy ci = true
  · rw [if_pos h1]
    exact getAllChats_reqs_pre env st
  · rw [if_neg h1] at hf ⊢
    by_cases h2 : jsTypeof ci ≠ "number"
    · rw [if_pos h2]
      exact getAllChats_reqs_pre env st
    · rw [if_neg h2] at hf ⊢
      by_cases h3 : (getAllChatsDetails env st).2.2.length = 0
      · rw [if_pos h3]
        exact getAllChats_reqs_pre env st
      · rw [if_neg h3] at hf ⊢
        by_cases h4 : idxInt ci < 0 ∨ ((getAllChatsDetails env st).2.2.length : Int) ≤ idxInt ci
        · rw [if_pos h4]
          exact getAllChats_reqs_pre env st
        · rw [if_neg h4] at hf ⊢
          by_cases h5 : jsFalsy mh = true
          · rw [if_pos h5]
            exact getAllChats_reqs_pre env st
          · rw [if_neg h5] at hf ⊢
            by_cases h6 : jsTypeof mh ≠ "string"
            · rw [if_pos h6]
              exact getAllChats_reqs_pre env st
            · rw [if_neg h6] at hf ⊢
              by_cases h7 : msgLength mh = 0 ∨ msgTrimEmpty mh = true
              · rw [if_pos h7]
                exact getAllChats_reqs_pre env st
              · rw [if_neg h7] at hf
                dsimp only at hf
                rcases hf with ⟨m, hm⟩ | ⟨m, hm⟩ <;> cases hm

theorem getChatMessagesDetails_fail_reqs (env : Env) (st : CState) (ci : JsP)
    (hf : failSignal ((getChatMessagesDetails env st ci).outcome) ∨
      ∃ m, (getChatMessagesDetails env st ci).outcome = Outcome.thrown m) :
    ∀ r ∈ (getChatMessagesDetails env st ci).reqs, preReq r := by
  rw [getChatMessagesDetails] at hf ⊢
  by_cases h1 : jsTypeof ci ≠ "number"
  · rw [if_pos h1]
    exact getAllChats_reqs_pre env st
  · rw [if_neg h1] at hf ⊢
    by_cases h2 : (getAllChatsDetails env st).2.2.length = 0
    · rw [if_pos h2]
      exact getAllChats_reqs_pre env st
    · rw [if_neg h2] at hf ⊢
      by_cases h3 : idxInt ci < 0 ∨ ((getAllChatsDetails env st).2.2.length : Int) ≤ idxInt ci
      · rw [if_pos h3]
        exact getAllChats_reqs_pre env st
      · rw [if_neg h3] at hf
        dsimp only at hf
        rcases hf with (⟨m, hm⟩ | ⟨m, hm⟩) | ⟨m, hm⟩ <;> cases hm

theorem getChatDetails_empty (env : Env) (st : CState) (i : Int)
    (h0 : env.chats.length = 0) :
    (getChatDetails env st (JsP.num i)).outcome = Outcome.consoleWarn "No chats found" := by
  rw [getChatDetails, if_neg (by simp [jsTypeof]), if_neg (by simp [jsTypeof]),
    show (getAllChatsDetails env st).2.2 = env.chats from rfl, if_pos h0]

theorem getChatDetails_oob (env : Env) (st : CState) (i : Int)
    (h0 : env.chats.length ≠ 0) (hi : i < 0 ∨ (env.chats.length : Int) ≤ i) :
    (getChatDetails env st (JsP.num i)).outcome =
      Outcome.consoleError "Chat index is out of bounds" := by
  rw [getChatDetails, if_neg (by simp [jsTypeof]), if_neg (by simp [jsTypeof]),
    show (getAllChatsDetails env st).2.2 = env.chats from rfl, if_neg h0,
    show idxInt (JsP.num i) = i from rfl, if_pos hi]

theorem deleteChat_empty (env : Env) (st : CState) (i : Int)
    (h0 : env.chats.length = 0) :
    (deleteChat env st (JsP.num i)).outcome = Outcome.consoleWarn "No chats found" := by
  rw [deleteChat, if_neg (by simp [jsTypeof]), if_neg (by simp [jsTypeof]),
    show (getAllChatsDetails env st).2.2 = env.chats from rfl, if_pos h0]

theorem deleteChat_oob (env : Env) (st : CState) (i : Int)
    (h0 : env.chats.length ≠ 0) (hi : i < 0 ∨ (env.chats.length : Int) ≤ i) :
    (deleteChat env st (JsP.num i)).outcome =
      Outcome.consoleError "Chat index is out of bounds" := by
  rw [deleteChat, if_neg (by simp [jsTypeof]), if_neg (by simp [jsTypeof]),
    show (getAllChatsDetails env st).2.2 = env.chats from rfl, if_neg h0,
    show idxInt (JsP.num i) = i from rfl, if_pos hi]

theorem sendMessage_empty (env : Env) (st : CState) (i : Int) (m a rr : JsP)
    (h0 : env.chats.length = 0) :
    (sendMessage env st (JsP.num i) m a rr).outcome = Outcome.consoleWarn "No chats found" := by
  rw [sendMessage, if_neg (by simp [jsTypeof]), if_neg (by simp [jsTypeof]),
    show (getAllChatsDetails env st).2.2 = env.chats from rfl, if_pos h0]

theorem sendMessage_oob (env : Env) (st : CState) (i : Int) (m a rr : JsP)
    (h0 : env.chats.length ≠ 0) (hi : i < 0 ∨ (env.chats.length : Int) ≤ i) :
    (sendMessage env st (JsP.num i) m a rr).outcome =
      Outcome.consoleError "Chat index is out of bounds" := by
  rw [sendMessage, if_neg (by simp [jsTypeof]), if_neg (by simp [jsTypeof]),
    show (getAllChatsDetails env st).2.2 = env.chats from rfl, if_neg h0,
    show idxInt (JsP.num i) = i from rfl, if_pos hi]

theorem generateChatTitle_empty (env : Env) (st : CState) (i : Int) (mh : JsP)
    (h0 : env.chats.length = 0) :
    (generateChatTitle env st (JsP.num i) mh).outcome =
      Outcome.consoleWarn "No chats found" := by
  rw [generateChatTitle, if_neg (by simp [jsTypeof]), if_neg (by simp [jsTypeof]),
    show (getAllChatsDetails env st).2.2 = env.chats from rfl, if_pos h0]

theorem generateChatTitle_oob (env : Env) (st : CState) (i : Int) (mh : JsP)
    (h0 : env.chats.length ≠ 0) (hi : i < 0 ∨ (env.chats.length : Int) ≤ i) :
    (generateChatTitle env st (JsP.num i) mh).outcome =
      Outcome.consoleError "Chat index is out of bounds" := by
  rw [generateChatTitle, if_neg (by simp [jsTypeof]), if_neg (by simp [jsTypeof]),
    show (getAllChatsDetails env st).2.2 = env.chats from rfl, if_neg h0,
    show idxInt (JsP.num i) = i from rfl, if_pos hi]

theorem renameChatTitle_empty (env : Env) (st : CState) (i : Int) (nn : JsP)
    (h0 : env.chats.length = 0) :
    (renameChatTitle env st (JsP.num i) nn).outcome = Outcome.consoleWarn "No chats found" := by
  rw [renameChatTitle, if_neg (by simp [jsTypeof]), if_neg (by simp [jsTypeof]),
    show (getAllChatsDetails env st).2.2 = env.chats from rfl, if_pos h0]

theorem renameChatTitle_oob (env : Env) (st : CState) (i : Int) (nn : JsP)
    (h0 : env.chats.length ≠ 0) (hi : i < 0 ∨ (env.chats.length : Int) ≤ i) :
    (renameChatTitle env st (JsP.num i) nn).outcome =
      Outcome.consoleError "Chat index is out of bounds" := by
  rw [renameChatTitle, if_neg (by simp [jsTypeof]), if_neg (by simp [jsTypeof]),
    show (getAllChatsDetails env st).2.2 = env.chats from rfl, if_neg h0,
    show idxInt (JsP.num i) = i from rfl, if_pos hi]

theorem getChatMessagesDetails_empty (env : Env) (st : CState) (i : Int)
    (h0 : env.chats.length = 0) :
    (getChatMessagesDetails env st (JsP.num i)).outcome =
      Outcome.consoleWarn "No chats found" := by
  rw [getChatMessagesDetails, if_neg (by simp [jsTypeof]),
    show (getAllChatsDetails env st).2.2 = env.chats from rfl, if_pos h0]

theorem getChatMessagesDetails_oob (env : Env) (st : CState) (i : Int)
    (h0 : env.chats.length ≠ 0) (hi : i < 0 ∨ (env.chats.length : Int) ≤ i) :
    (getChatMessagesDetails env st (JsP.num i)).outcome =
      Outcome.thrown "Chat index is out of bounds" := by
  rw [getChatMessagesDetails, if_neg (by simp [jsTypeof]),
    show (getAllChatsDetails env st).2.2 = env.chats from rfl, if_neg h0,
    show idxInt (JsP.num i) = i from rfl, if_pos hi]

/-- A returned decoded string always comes from decoding the
`append_message` response text. -/
theorem sendMessage_ret_decode (env : Env) (st : CState) (ci m a rr : JsP) (s : String)
    (h : (sendMessage env st ci m a rr).outcome = Outcome.ret (some s)) :
    decode env.sendBody = Except.ok s := by
  rw [sendMessage] at h
  by_cases h1 : jsTypeof ci ≠ "number" ∧ jsFalsy ci = true
  · rw [if_pos h1] at h
    cases h
  · rw [if_neg h1] at h
    by_cases h2 : jsTypeof ci ≠ "number"
    · rw [if_pos h2] at h
      cases h
    · rw [if_neg h2] at h
      by_cases h3 : (getAllChatsDetails env st).2.2.length = 0
      · rw [if_pos h3] at h
        cases h
      · rw [if_neg h3] at h
        by_cases h4 : idxInt ci < 0 ∨ ((getAllChatsDetails env st).2.2.length : Int) ≤ idxInt ci
        · rw [if_pos h4] at h
          cases h
        · rw [if_neg h4] at h
          by_cases h5 : jsFalsy m = true ∧ (wrapArr a).length = 0
          · rw [if_pos h5] at h
            cases h
          · rw [if_neg h5] at h
            by_cases h6 : ¬jsFalsy m = true ∧ jsTypeof m ≠ "string"
            · rw [if_pos h6] at h
              cases h
            · rw [if_neg h6] at h
              by_cases h7 : ¬jsFalsy m = true ∧ (msgLength m = 0 ∨ msgTrimEmpty m = true)
              · rw [if_pos h7] at h
                cases h
              · rw [if_neg h7] at h
                by_cases h8 : jsTypeof rr ≠ "boolean"
                · rw [if_pos h8] at h
                  cases h
                · rw [if_neg h8] at h
                  by_cases h9 : ¬jsFalsy rr = true
                  · rw [if_pos h9] at h
                    revert h
                    cases hd : decode env.sendBody with
                    | ok s2 =>
                      intro h
                      simp only [Outcome.ret.injEq, Option.some.injEq] at h
                      rw [h]
                    | error e =>
                      intro h
                      cases h
                  · rw [if_neg h9] at h
                    cases h

/-- C10: confirmed.  When the attachments array fails the shape check
(`validAttachment` is false for some element) but every other check
passes, `sendMessage` still issues the `append_message` request carrying
exactly those attachments — the check at src/index.js lines 205-216 only
logs and has no `return`, so the send is not aborted. -/
theorem C10_invalid_attachments_still_sent (env : Env) (st : CState) (i : Int) (msg : String)
    (atts : List JsP) (rr : Bool)
    (h0 : env.chats.length ≠ 0) (hlo : 0 ≤ i) (hhi : i < (env.chats.length : Int))
    (hmsg : msg ≠ "") (htrim : jsTrim msg.data ≠ [])
    (hinv : atts.all validAttachment = false) :
    ∃ org chat text,
      Req.appendMessage org chat text atts ∈
        (sendMessage env st (JsP.num i) (JsP.str msg) (JsP.arr atts) (JsP.bool rr)).reqs := by
  rw [sendMessage, if_neg (by simp [jsTypeof]), if_neg (by simp [jsTypeof]),
    show (getAllChatsDetails env st).2.2 = env.chats from rfl, if_neg h0,
    show idxInt (JsP.num i) = i from rfl, if_neg (by omega),
    show wrapArr (JsP.arr atts) = atts from rfl,
    show jsFalsy (JsP.str msg) = msg.isEmpty from rfl]
  rw [if_neg (by simp [String.isEmpty_iff, hmsg])]
  rw [if_neg (by simp [jsTypeof])]
  rw [if_neg (by
    simp only [msgLength, msgTrimEmpty, not_and, not_or]
    intro _
    constructor
    · intro hlen
      apply hmsg
      cases msg with
      | mk d =>
        have hd : d = [] := List.length_eq_zero.mp (by simpa [String.length] using hlen)
        subst hd
        rfl
    · simpa [List.isEmpty_iff] using htrim)]
  rw [if_neg (by simp [jsTypeof])]
  by_cases h9 : ¬jsFalsy (JsP.bool rr) = true
  · rw [if_pos h9]
    cases decode env.sendBody with
    | ok s2 => exact ⟨_, _, _, List.mem_append_right _ (List.mem_singleton_self _)⟩
    | error e => exact ⟨_, _, _, List.mem_append_right _ (List.mem_singleton_self _)⟩
  · rw [if_neg h9]
    exact ⟨_, _, _, List.mem_append_right _ (List.mem_singleton_self _)⟩

/-! ## The claims -/

/-- C1: counterexample.  The single line
`data: {"completion":"data: x"}` is of the claimed form with fragment
`data: x`, yet the decoder throws a `SyntaxError` instead of returning
`data: x`: `line.split('data: ')` also splits inside the JSON text, so
`[1]` is the unparsable fragment `{"completion":"`. -/
theorem C1_counterexample :
    decode "data: \x7b\"completion\":\"data: x\"\x7d" = Except.error JsErr.syntaxError := rfl

/-- C1: corrected.  For lines `data: ` + JSON text whose text contains
no further `'data: '` occurrence, the decoder returns the trimmed
concatenation of the `completion` fragments in line order, and the
literal scenario decodes to `Hello!`. -/
theorem C1_decoder_concat :
    (∀ (lines frags : List (List Char)), List.Forall₂ goodLine lines frags →
      decodeChunks (List.intercalate ['\n'] lines) = Except.ok (jsTrim frags.flatten)) ∧
    decode "data: \x7b\"completion\":\"Hel\"\x7d\n\ndata: \x7b\"completion\":\"lo!\"\x7d\n" =
      Except.ok "Hello!" :=
  ⟨decodeChunks_good, rfl⟩

/-- C1: witness at one concrete good line. -/
theorem C1_witness :
    decodeChunks (List.intercalate ['\n'] ["data: \x7b\"completion\":\"Hi\"\x7d".data]) =
      Except.ok (jsTrim (List.flatten ["Hi".data])) :=
  C1_decoder_concat.1 ["data: \x7b\"completion\":\"Hi\"\x7d".data] ["Hi".data]
    (List.Forall₂.cons
      ⟨"\x7b\"completion\":\"Hi\"\x7d".data, [("completion".data, Json.str "Hi".data)],
        rfl, by decide, rfl, rfl, rfl⟩
      List.Forall₂.nil)

/-- C2: counterexample.  A line that does not begin with `data: ` can
still decode successfully (the split matches the occurrence in the
middle), and a parsed object without a `completion` member does not
raise an error — it yields the empty string. -/
theorem C2_counterexample :
    decode "xdata: \x7b\"completion\":\"a\"\x7d" = Except.ok "a" ∧
      decode "data: \x7b\x7d" = Except.ok "" :=
  ⟨rfl, rfl⟩

/-- C2: witness at concrete inputs for each conjunct. -/
theorem C2_witness :
    decodeChunks ("hello".data) = Except.error JsErr.syntaxError ∧
      decodeChunks (dataPref ++ "nope".data) = Except.error JsErr.syntaxError ∧
      decodeChunks (dataPref ++ "\x7b\x7d".data) = Except.ok [] :=
  ⟨C2_chunk_parsing.1 "hello".data (by decide) (by decide) (by decide),
    C2_chunk_parsing.2.1 "nope".data (by decide) (by decide) rfl,
    C2_chunk_parsing.2.2 "\x7b\x7d".data [] (by decide) (by decide) rfl rfl⟩

/-- C3: counterexample.  A `getChatDetails` call with a non-numeric
index fails validation, yet two network requests (the account fetch and
the chat-list fetch) have already been issued — the claim that no
request is made on such an invocation is false. -/
theorem C3_counterexample :
    getChatDetails ⟨"org1", [], "", none⟩ ⟨none⟩ (JsP.str "x") =
      ⟨[Req.account, Req.chatList "org1"], ⟨some "org1"⟩,
        Outcome.consoleError "Chat index must be a number"⟩ := rfl

/-- C3: corrected.  A validation failure (or the empty-list warning) is
detected after the chat-list fetch but before the operation-specific
request, for every index-taking operation: every request issued by such
an invocation of `getChatDetails`, `deleteChat`, `sendMessage`,
`generateChatTitle`, `renameChatTitle`, or the unnamed variant's
`getChatMessagesDetails` (whose validation failures are thrown errors)
is the account fetch or the chat-list fetch — no single-chat, delete,
rename, `append_message` or title request is made. -/
theorem C3_fail_only_prefetch :
    (∀ (env : Env) (st : CState) (ci : JsP),
      failSignal ((getChatDetails env st ci).outcome) →
      ∀ r ∈ (getChatDetails env st ci).reqs, preReq r) ∧
    (∀ (env : Env) (st : CState) (ci : JsP),
      failSignal ((deleteChat env st ci).outcome) →
      ∀ r ∈ (deleteChat env st ci).reqs, preReq r) ∧
    (∀ (env : Env) (st : CState) (ci m a rr : JsP),
      failSignal ((sendMessage env st ci m a rr).outcome) →
      ∀ r ∈ (sendMessage env st ci m a rr).reqs, preReq r) ∧
    (∀ (env : Env) (st : CState) (ci mh : JsP),
      failSignal ((generateChatTitle env st ci mh).outcome) →
      ∀ r ∈ (generateChatTitle env st ci mh).reqs, preReq r) ∧
    (∀ (env : Env) (st : CState) (ci nn : JsP),
      failSignal ((renameChatTitle env st ci nn).outcome) →
      ∀ r ∈ (renameChatTitle env st ci nn).reqs, preReq r) ∧
    (∀ (env : Env) (st : CState) (ci : JsP),
      (failSignal ((getChatMessagesDetails env st ci).outcome) ∨
        ∃ m, (getChatMessagesDetails env st ci).outcome = Outcome.thrown m) →
      ∀ r ∈ (getChatMessagesDetails env st ci).reqs, preReq r) :=
  ⟨getChatDetails_fail_reqs, deleteChat_fail_reqs, sendMessage_fail_reqs,
    generateChatTitle_fail_reqs, renameChatTitle_fail_reqs,
    getChatMessagesDetails_fail_reqs⟩

/-- C3: witness at a concrete failing invocation. -/
theorem C3_witness : preReq Req.account :=
  C3_fail_only_prefetch.1 ⟨"org1", [], "", none⟩ ⟨none⟩ (JsP.str "x")
    (Or.inl ⟨"Chat index must be a number", rfl⟩) Req.account
    (show Req.account ∈ [Req.account, Req.chatList "org1"] from List.mem_cons_self _ _)

/-- C4: confirmed.  For every index-taking operation and every numeric
index: a fetched chat list of length 0 signals the non-fatal
`No chats found` warning regardless of the index value, and a list of
length ≥ 1 with an index below 0 or at least the length signals the
out-of-bounds validation error (a thrown `Error` in the unnamed
variant's `getChatMessagesDetails`). -/
theorem C4_index_validation :
    (∀ (env : Env) (st : CState) (i : Int), env.chats.length = 0 →
      (getChatDetails env st (JsP.num i)).outcome = Outcome.consoleWarn "No chats found") ∧
    (∀ (env : Env) (st : CState) (i : Int), env.chats.length ≠ 0 →
      (i < 0 ∨ (env.chats.length : Int) ≤ i) →
      (getChatDetails env st (JsP.num i)).outcome =
        Outcome.consoleError "Chat index is out of bounds") ∧
    (∀ (env : Env) (st : CState) (i : Int), env.chats.length = 0 →
      (deleteChat env st (JsP.num i)).outcome = Outcome.consoleWarn "No chats found") ∧
    (∀ (env : Env) (st : CState) (i : Int), env.chats.length ≠ 0 →
      (i < 0 ∨ (env.chats.length : Int) ≤ i) →
      (deleteChat env st (JsP.num i)).outcome =
        Outcome.consoleError "Chat index is out of bounds") ∧
    (∀ (env : Env) (st : CState) (i : Int) (m a rr : JsP), env.chats.length = 0 →
      (sendMessage env st (JsP.num i) m a rr).outcome = Outcome.consoleWarn "No chats found") ∧
    (∀ (env : Env) (st : CState) (i : Int) (m a rr : JsP), env.chats.length ≠ 0 →
      (i < 0 ∨ (env.chats.length : Int) ≤ i) →
      (sendMessage env st (JsP.num i) m a rr).outcome =
        Outcome.consoleError "Chat index is out of bounds") ∧
    (∀ (env : Env) (st : CState) (i : Int) (mh : JsP), env.chats.length = 0 →
      (generateChatTitle env st (JsP.num i) mh).outcome =
        Outcome.consoleWarn "No chats found") ∧
    (∀ (env : Env) (st : CState) (i : Int) (mh : JsP), env.chats.length ≠ 0 →
      (i < 0 ∨ (env.chats.length : Int) ≤ i) →
      (generateChatTitle env st (JsP.num i) mh).outcome =
        Outcome.consoleError "Chat index is out of bounds") ∧
    (∀ (env : Env) (st : CState) (i : Int) (nn : JsP), env.chats.length = 0 →
      (renameChatTitle env st (JsP.num i) nn).outcome =
        Outcome.consoleWarn "No chats found") ∧
    (∀ (env : Env) (st : CState) (i : Int) (nn : JsP), env.chats.length ≠ 0 →
      (i < 0 ∨ (env.chats.length : Int) ≤ i) →
      (renameChatTitle env st (JsP.num i) nn).outcome =
        Outcome.consoleError "Chat index is out of bounds") ∧
    (∀ (env : Env) (st : CState) (i : Int), env.chats.length = 0 →
      (getChatMessagesDetails env st (JsP.num i)).outcome =
        Outcome.consoleWarn "No chats found") ∧
    (∀ (env : Env) (st : CState) (i : Int), env.chats.length ≠ 0 →
      (i < 0 ∨ (env.chats.length : Int) ≤ i) →
      (getChatMessagesDetails env st (JsP.num i)).outcome =
        Outcome.thrown "Chat index is out of bounds") :=
  ⟨getChatDetails_empty, getChatDetails_oob, deleteChat_empty, deleteChat_oob,
    fun env st i m a rr => sendMessage_empty env st i m a rr,
    fun env st i m a rr => sendMessage_oob env st i m a rr,
    generateChatTitle_empty, generateChatTitle_oob, renameChatTitle_empty, renameChatTitle_oob,
    getChatMessagesDetails_empty, getChatMessagesDetails_oob⟩

/-- C4: witness — an empty chat list warns even for a wildly
out-of-range index, and a one-element list with index 5 errors. -/
theorem C4_witness :
    (getChatDetails ⟨"o", [], "", none⟩ ⟨none⟩ (JsP.num (-7))).outcome =
      Outcome.consoleWarn "No chats found" ∧
    (getChatDetails ⟨"o", ["u1"], "", none⟩ ⟨none⟩ (JsP.num 5)).outcome =
      Outcome.consoleError "Chat index is out of bounds" :=
  ⟨C4_index_validation.1 ⟨"o", [], "", none⟩ ⟨none⟩ (-7) rfl,
    C4_index_validation.2.1 ⟨"o", ["u1"], "", none⟩ ⟨none⟩ 5 (by decide) (by decide)⟩

/-- C5: counterexample.  A whitespace-only line (one space) is *not*
discarded: the filter only removes empty strings, so the space line
reaches `JSON.parse` (via `split('data: ')[1]`, which is `undefined`)
and the whole decode fails instead of returning `x`. -/
theorem C5_counterexample :
    decode "data: \x7b\"completion\":\"x\"\x7d\n \n" = Except.error JsErr.syntaxError := rfl

/-- C5: corrected.  After splitting, exactly the *empty* lines are
discarded and contribute nothing: appending or prepending a CR/LF never
changes the decoder's result (so a trailing empty line never produces a
spurious fragment or an error); whitespace-only non-empty lines are
retained. -/
theorem C5_empty_lines_dropped (cs : List Char) :
    decodeChunks (cs ++ ['\n']) = decodeChunks cs ∧
      decodeChunks ('\n' :: cs) = decodeChunks cs := by
  constructor
  · rw [decodeChunks, decodeChunks]
    rcases splitLines_append_sep '\n' (by decide) cs with h | h
    · rw [h, List.filter_append]
      simp [List.filter]
    · rw [h]
  · rw [decodeChunks, decodeChunks]
    rcases splitLines_cons_sep '\n' (by decide) cs with h | h
    · rw [h]
      simp [List.filter]
    · rw [h]

/-- C7: counterexample.  An input consisting of one whitespace-only
(but not CR/LF-only) line raises a `SyntaxError` instead of decoding to
the empty string. -/
theorem C7_counterexample : decode " " = Except.error JsErr.syntaxError := rfl

/-- C7: corrected.  The empty input, and every input consisting only of
CR/LF characters (only empty lines), decodes to the empty string
without an error; a blank line containing other whitespace does not. -/
theorem C7_empty_input (s : List Char) (h : ∀ c ∈ s, lineSep c = true) :
    decodeChunks s = Except.ok [] := by
  rw [decodeChunks]
  have hf : ((splitLines s).filter fun l => !l.isEmpty) = [] := by
    rw [List.filter_eq_nil]
    intro t ht
    simp [splitLines_all_sep s h t ht]
  rw [hf]
  rfl

/-- C7: witness on a CR/LF-only input. -/
theorem C7_witness : decodeChunks ("\n\r\n".data) = Except.ok [] :=
  C7_empty_input ("\n\r\n".data) (by decide)

/-- C6: counterexample.  The input line
`data: {"completion":"data: x"}` decodes successfully to the
string `data: x`, but re-wrapping that output as the synthesized line
`data: {"completion": "data: x"}` fails: the synthesized JSON text now
contains a literal `'data: '`, so the split truncates it to invalid
JSON. -/
theorem C6_counterexample :
    decode "data: \x7b\"completion\":\"data\\u003a x\"\x7d" = Except.ok "data: x" ∧
      decodeChunks (dataPref ++ synthCompletionJson ("data: x".data)) =
        Except.error JsErr.syntaxError :=
  ⟨rfl, rfl⟩

/-- C6: corrected.  Whenever the decoder succeeds with output `s` *and*
the synthesized JSON text `{"completion": "s"}` contains no `'data: '`
occurrence, decoding the re-wrapped single line returns the same `s`
(outputs are already trimmed, so the outer trim is the identity). -/
theorem C6_rewrap_idempotent (input s : List Char)
    (hok : decodeChunks input = Except.ok s)
    (hnd : hasData (synthCompletionJson s) = false) :
    decodeChunks (dataPref ++ synthCompletionJson s) = Except.ok s :=
  decodeChunks_rewrap input s hok hnd

/-- C6: witness re-wrapping the decode of one concrete input. -/
theorem C6_witness :
    decodeChunks (dataPref ++ synthCompletionJson ("T".data)) = Except.ok ("T".data) :=
  C6_rewrap_idempotent ("data: \x7b\"completion\":\"T\"\x7d".data) ("T".data) rfl (by decide)

/-- C8: confirmed.  Starting from the state left by an account lookup
(`getUserDetails`), no operation — including further `getUserDetails`
calls — changes the cached `claudejs.orgUUID`: every modelled operation
returns exactly that state. -/
theorem C8_org_uuid_stable (env : Env) (st : CState) :
    ((getUserDetails env ((getUserDetails env st).2)).2 = (getUserDetails env st).2) ∧
    ((getAllChatsDetails env ((getUserDetails env st).2)).2.1 = (getUserDetails env st).2) ∧
    (∀ ci, (getChatDetails env ((getUserDetails env st).2) ci).state =
      (getUserDetails env st).2) ∧
    (∀ ci, (deleteChat env ((getUserDetails env st).2) ci).state =
      (getUserDetails env st).2) ∧
    (∀ ci m a rr, (sendMessage env ((getUserDetails env st).2) ci m a rr).state =
      (getUserDetails env st).2) ∧
    (∀ ci mh, (generateChatTitle env ((getUserDetails env st).2) ci mh).state =
      (getUserDetails env st).2) ∧
    (∀ ci nn, (renameChatTitle env ((getUserDetails env st).2) ci nn).state =
      (getUserDetails env st).2) ∧
    (∀ ci, (getChatMessagesDetails env ((getUserDetails env st).2) ci).state =
      (getUserDetails env st).2) := by
  refine ⟨populate_idem env st, ?_, fun ci => ?_, fun ci => ?_, fun ci m a rr => ?_,
    fun ci mh => ?_, fun ci nn => ?_, fun ci => ?_⟩
  · rw [getAllChats_state, populate_idem]
  · rw [getChatDetails_state, populate_idem]
  · rw [deleteChat_state, populate_idem]
  · rw [sendMessage_state, populate_idem]
  · rw [generateChatTitle_state, populate_idem]
  · rw [renameChatTitle_state, populate_idem]
  · rw [getChatMessagesDetails_state, populate_idem]

/-- C9: confirmed (as a two-run hyperproperty).  The decoded string a
`sendMessage` call returns depends only on the response text: two runs
with equal `append_message` response bodies — whatever their cached
state or other arguments — return equal strings. -/
theorem C9_decode_deterministic (env1 env2 : Env) (st1 st2 : CState)
    (ci1 m1 a1 rr1 ci2 m2 a2 rr2 : JsP) (s1 s2 : String)
    (hbody : env1.sendBody = env2.sendBody)
    (h1 : (sendMessage env1 st1 ci1 m1 a1 rr1).outcome = Outcome.ret (some s1))
    (h2 : (sendMessage env2 st2 ci2 m2 a2 rr2).outcome = Outcome.ret (some s2)) :
    s1 = s2 := by
  have d1 := sendMessage_ret_decode env1 st1 ci1 m1 a1 rr1 s1 h1
  have d2 := sendMessage_ret_decode env2 st2 ci2 m2 a2 rr2 s2 h2
  rw [hbody] at d1
  rw [d1] at d2
  exact (Except.ok.injEq _ _).mp d2

/-- C9: witness — two concrete runs with the same response body. -/
theorem C9_witness : ("T" : String) = "T" :=
  C9_decode_deterministic
    ⟨"o1", ["u1"], "data: \x7b\"completion\":\"T\"\x7d", none⟩
    ⟨"o2", ["u2", "u3"], "data: \x7b\"completion\":\"T\"\x7d", none⟩
    ⟨none⟩ ⟨some "cached"⟩ (JsP.num 0) (JsP.str "hi") (JsP.arr []) (JsP.bool true)
    (JsP.num 1) (JsP.str "yo") (JsP.arr []) (JsP.bool true) "T" "T"
    rfl rfl rfl

/-- C10: witness — a null attachment fails the shape check, yet the
request carrying it is issued. -/
theorem C10_witness :
    ∃ org chat text,
      Req.appendMessage org chat text [JsP.null] ∈
        (sendMessage ⟨"o", ["u1"], "", none⟩ ⟨none⟩ (JsP.num 0) (JsP.str "hi")
          (JsP.arr [JsP.null]) (JsP.bool false)).reqs :=
  C10_invalid_attachments_still_sent ⟨"o", ["u1"], "", none⟩ ⟨none⟩ 0 "hi" [JsP.null] false
    (by decide) (by decide) (by decide) (by decide) (by decide) rfl
